import Mathlib

/-
Shallow embedding of the asynchronous S3 upload engine of this repository:
  * src/c_plus/src/uploadAsync/S3UploadAsync.cpp
  * src/c_plus/src/common/S3Common.h / S3Common.cpp
  * src/c_plus/src/common/request/s3_client_manager.h / .cpp

Conventions of the embedding:
  * C++ std::string is Lean String; byte sizes (long long) and timestamps
    (time_t, microseconds) are Int; counts (size_t) are Nat.
  * The AWS SDK, the HTTP backend and the filesystem are external effects;
    their observable answers are supplied through oracle parameters
    (a WorkerEnv record of functions).
  * The tracker map std::unordered_map<String, shared_ptr<AsyncUploadProgress>>
    is modelled as a list of records in the map's iteration order.  The C++
    standard leaves that order unspecified and it is NOT insertion order; the
    deployment toolchain is MinGW (see the __MINGW32__ block of S3Common.h),
    whose libstdc++ _Hashtable links a node whose bucket was empty at the
    front of the element list, so a fresh insertion iterates first.  Insertion
    is therefore modelled as prepending (replacing in place when the key is
    already present, as operator[] does).
  * Setting a field through a shared_ptr (progress->x = v) is modelled as
    updating, in the list, the record carrying that upload id.
-/

namespace S3Upload

/- ---------------------------------------------------------------------
   String helpers (S3Common.cpp)
   --------------------------------------------------------------------- -/

/-- Models `s.find(pfx) == 0`, i.e. `s` starts with `pfx`. -/
def strStartsWith (s pfx : String) : Bool :=
  pfx.data.isPrefixOf s.data

/-- Models `s.find(sub) != npos`: `sub` occurs somewhere inside `s`. -/
def strContainsSub (s sub : String) : Bool :=
  (List.range (s.data.length + 1)).any (fun i => sub.data.isPrefixOf (s.data.drop i))

/-- Index of the last `'/'` in a character list (models `find_last_of('/')`). -/
def findLastSlashAux : List Char → Option Nat
  | [] => none
  | c :: rest =>
    match findLastSlashAux rest with
    | some i => some (i + 1)
    | none => if c = '/' then some 0 else none

/-- Models `objectKey.find_last_of('/')`. -/
def findLastSlash (s : String) : Option Nat := findLastSlashAux s.data

/-- Index of the first occurrence of `c` (models `s.find(c)` for a single char). -/
def findCharPos (c : Char) : List Char → Option Nat
  | [] => none
  | x :: rest => if x = c then some 0 else (findCharPos c rest).map (· + 1)

/-- `extractUploadDataName` of S3Common.cpp: the segment between the last two
slashes of the object key (the second-to-last path segment). -/
def extractUploadDataName (objectKey : String) : String :=
  match findLastSlash objectKey with
  | none => ""
  | some lastSlash =>
    let pathWithoutLastSegment := objectKey.data.take lastSlash
    match findLastSlashAux pathWithoutLastSegment with
    | none => ""
    | some secondLastSlash => ⟨pathWithoutLastSegment.drop (secondLastSlash + 1)⟩

/-- `extractFileName` of S3Common.cpp: everything after the last slash, or ""
when there is no slash or the slash is the final character. -/
def extractFileName (objectKey : String) : String :=
  match findLastSlash objectKey with
  | none => ""
  | some lastSlash =>
    if lastSlash + 1 < objectKey.data.length then ⟨objectKey.data.drop (lastSlash + 1)⟩
    else ""

/-- The `substr(0, lastSlash + 1)` step of S3UploadAsync.cpp (folder uploads):
strip the last path segment, keeping the trailing slash; the key is unchanged
when it contains no slash. -/
def parentDirKey (s3ObjectKey : String) : String :=
  match findLastSlash s3ObjectKey with
  | none => s3ObjectKey
  | some lastSlash => ⟨s3ObjectKey.data.take (lastSlash + 1)⟩

/-- Decimal value of a digit prefix; accumulator style mirrors left-to-right
parsing, stopping at the first non-digit.  `none` when no digit was read. -/
def takeDigitsVal : List Char → Option Nat → Option Nat
  | [], acc => acc
  | c :: rest, acc =>
    if c.isDigit then takeDigitsVal rest (some ((acc.getD 0) * 10 + (c.toNat - '0'.toNat)))
    else acc

/-- Models `std::stoll` on the timestamp suffix of an upload id: an optional
sign followed by at least one decimal digit; trailing junk is ignored;
`none` models the thrown `invalid_argument`. -/
def stollPrefix (s : String) : Option Int :=
  match s.data with
  | '-' :: rest => (takeDigitsVal rest none).map (fun n => -(n : Int))
  | l => (takeDigitsVal l none).map (fun n => (n : Int))

/- ---------------------------------------------------------------------
   Data model (S3Common.h)
   --------------------------------------------------------------------- -/

/-- Upload status enumeration of S3Common.h. -/
inductive UploadStatus
  | UPLOAD_PENDING
  | UPLOAD_UPLOADING
  | UPLOAD_SUCCESS
  | UPLOAD_FAILED
  | UPLOAD_CANCELLED
  | SDK_INIT_SUCCESS
  | SDK_CLEAN_SUCCESS
  | CONFIRM_SUCCESS
  | CONFIRM_FAILED
deriving DecidableEq, Repr

/-- The stable integer value of each status (the C enum values 0..8). -/
def UploadStatus.toCode : UploadStatus → Int
  | .UPLOAD_PENDING => 0
  | .UPLOAD_UPLOADING => 1
  | .UPLOAD_SUCCESS => 2
  | .UPLOAD_FAILED => 3
  | .UPLOAD_CANCELLED => 4
  | .SDK_INIT_SUCCESS => 5
  | .SDK_CLEAN_SUCCESS => 6
  | .CONFIRM_SUCCESS => 7
  | .CONFIRM_FAILED => 8

/-- FileOperationType of S3Common.h (BATCH_CREATE = 0, REAL_TIME_APPEND = 1). -/
inductive FileOperationType
  | BATCH_CREATE
  | REAL_TIME_APPEND
deriving DecidableEq, Repr

/-- AsyncUploadProgress of S3Common.h.  The two steady_clock time points are
omitted: no claim observes their values and wall-clock instants have no
shallow embedding; `shouldCancel` is the atomic cancellation flag, modelled as
a per-record constant for the duration of one worker pass. -/
structure AsyncUploadProgress where
  uploadId : String
  status : UploadStatus
  totalSize : Int
  errorMessage : String
  s3ObjectKey : String
  localFilePath : String
  shouldCancel : Bool
  dataId : String
  uploadDataName : String
  patientId : String
  confirmationAttempted : Bool
  fileOperationType : FileOperationType
deriving DecidableEq, Repr

/-- The tracker map `uploads_`, as a list of records in iteration order
(see the header comment on the unordered_map model). -/
abbrev Tracker := List AsyncUploadProgress

/-- Maximum number of retry attempts for failed uploads (S3Common.h). -/
def MAX_UPLOAD_RETRIES : Nat := 3

/-- Maximum number of concurrent uploads allowed (S3Common.h). -/
def MAX_UPLOAD_LIMIT : Nat := 100

/-- Upload ID separator constant (S3Common.h). -/
def UPLOAD_ID_SEPARATOR : String := "_"

/-- 3 days in microseconds (S3Common.cpp). -/
def THREE_DAYS_IN_MICROSECONDS : Int := 259200000000

/-- `getUploadIdPrefixByDataId` of S3Common.h. -/
def getUploadIdPrefixByDataId (dataId : String) : String :=
  dataId ++ UPLOAD_ID_SEPARATOR

/-- `getUploadId` of S3Common.cpp. -/
def getUploadId (dataId : String) (timestamp : Int) : String :=
  dataId ++ UPLOAD_ID_SEPARATOR ++ toString timestamp

/- ---------------------------------------------------------------------
   AsyncUploadManager (S3Common.h / S3Common.cpp)
   --------------------------------------------------------------------- -/

/-- `getUpload`: look the record up by upload id. -/
def getUpload (tr : Tracker) (uploadId : String) : Option AsyncUploadProgress :=
  tr.find? (fun p => p.uploadId == uploadId)

/-- `getAllUploadsByDataId`: every record whose upload id starts with
`dataId ++ "_"`, in the map's iteration order. -/
def getAllUploadsByDataId (tr : Tracker) (dataId : String) : List AsyncUploadProgress :=
  tr.filter (fun p => strStartsWith p.uploadId (getUploadIdPrefixByDataId dataId))

/-- `getTotalUploads`: `uploads_.size()`. -/
def getTotalUploads (tr : Tracker) : Nat := tr.length

/-- Per-record step of `updateProgress`: set the status, and the error message
only when the new message is non-empty. -/
def updateProgressRec (uploadId : String) (status : UploadStatus) (error : String)
    (p : AsyncUploadProgress) : AsyncUploadProgress :=
  if p.uploadId == uploadId then
    { p with status := status, errorMessage := if error ≠ "" then error else p.errorMessage }
  else p

/-- `updateProgress` of AsyncUploadManager. -/
def updateProgress (tr : Tracker) (uploadId : String) (status : UploadStatus)
    (error : String) : Tracker :=
  tr.map (updateProgressRec uploadId status error)

/-- Models `progress->totalSize = fileSize` through the shared pointer. -/
def setTotalSizeRec (uploadId : String) (size : Int) (p : AsyncUploadProgress) :
    AsyncUploadProgress :=
  if p.uploadId == uploadId then { p with totalSize := size } else p

def setTotalSize (tr : Tracker) (uploadId : String) (size : Int) : Tracker :=
  tr.map (setTotalSizeRec uploadId size)

/-- Models `progress->confirmationAttempted = true` through the shared pointer. -/
def setConfirmationAttemptedRec (uploadId : String) (p : AsyncUploadProgress) :
    AsyncUploadProgress :=
  if p.uploadId == uploadId then { p with confirmationAttempted := true } else p

def setConfirmationAttempted (tr : Tracker) (uploadId : String) : Tracker :=
  tr.map (setConfirmationAttemptedRec uploadId)

/-- Models `uploadProgress->fileOperationType = ...` through the shared pointer. -/
def setFileOperationTypeRec (uploadId : String) (m : FileOperationType)
    (p : AsyncUploadProgress) : AsyncUploadProgress :=
  if p.uploadId == uploadId then { p with fileOperationType := m } else p

def setFileOperationType (tr : Tracker) (uploadId : String) (m : FileOperationType) : Tracker :=
  tr.map (setFileOperationTypeRec uploadId m)

/-- The cleanup predicate of `addUpload` (S3Common.cpp): a record is pruned when
its id has a separator with a non-empty suffix, the suffix parses as an
integer, and that timestamp is more than 3 days older than `now`. -/
def isStaleUploadId (now : Int) (uploadId : String) : Bool :=
  match findCharPos '_' uploadId.data with
  | none => false
  | some separatorPos =>
    if separatorPos + 1 < uploadId.data.length then
      match stollPrefix ⟨uploadId.data.drop (separatorPos + 1)⟩ with
      | some uploadTimestamp => now - uploadTimestamp > THREE_DAYS_IN_MICROSECONDS
      | none => false
    else false

/-- `addUpload` of S3Common.cpp: prune stale records, then insert the new
record in Pending state, with `dataId` taken from the id up to the first
separator and `uploadDataName` extracted from the object key. -/
def addUpload (tr : Tracker) (uploadId localFilePath s3ObjectKey patientId : String)
    (now : Int) : Tracker :=
  let tr1 := tr.filter (fun p => ¬ isStaleUploadId now p.uploadId)
  let progress : AsyncUploadProgress :=
    { uploadId := uploadId
      status := .UPLOAD_PENDING
      totalSize := 0
      errorMessage := ""
      s3ObjectKey := s3ObjectKey
      localFilePath := localFilePath
      shouldCancel := false
      dataId := match findCharPos '_' uploadId.data with
                | some i => ⟨uploadId.data.take i⟩
                | none => ""
      uploadDataName := extractUploadDataName s3ObjectKey
      patientId := patientId
      confirmationAttempted := false
      fileOperationType := .BATCH_CREATE }
  if tr1.any (fun p => p.uploadId == uploadId) then
    tr1.map (fun p => if p.uploadId == uploadId then progress else p)
  else
    progress :: tr1

/- ---------------------------------------------------------------------
   S3ClientManager (s3_client_manager.h / .cpp)
   --------------------------------------------------------------------- -/

/-- The cached state of an S3ClientManager: region and fetcher are external;
`hasClient` models `current_client_ != nullptr`; `expiration` is
`current_credential_.expiration` (epoch seconds). -/
structure S3ClientManagerState where
  refresh_margin : Int
  current_patient_id : String
  hasClient : Bool
  expiration : Int
deriving DecidableEq, Repr

/-- `S3ClientManager::need_refresh`, with `current_time = std::time(nullptr)`
passed explicitly. -/
def need_refresh (st : S3ClientManagerState) (patient_id : String)
    (current_time : Int) : Bool :=
  if patient_id ≠ st.current_patient_id then true
  else if ¬ st.hasClient then true
  else if st.refresh_margin ≥ st.expiration then true
  else if current_time > st.expiration - st.refresh_margin then true
  else false

/-- Result of `get_client`: whether `refresh_client` ran, and the cache state
afterwards. -/
structure GetClientResult where
  refreshed : Bool
  state : S3ClientManagerState
deriving DecidableEq, Repr

/-- `S3ClientManager::get_client`.  `fetchedExpiration` is the expiration of
the credentials the token fetcher would return; `refresh_client` stores them
and caches a fresh client for `patient_id`. -/
def get_client (st : S3ClientManagerState) (patient_id : String) (current_time : Int)
    (fetchedExpiration : Int) : GetClientResult :=
  if need_refresh st patient_id current_time then
    { refreshed := true
      state := { refresh_margin := st.refresh_margin
                 current_patient_id := patient_id
                 hasClient := true
                 expiration := fetchedExpiration } }
  else
    { refreshed := false, state := st }

/- ---------------------------------------------------------------------
   RefreshingS3Client::with_auto_refresh (s3_client_manager.h)
   --------------------------------------------------------------------- -/

/-- Retry limit for expired-credential retries (s3_client_manager.h). -/
def kMaxExpiredRetries : Nat := 3

/-- Outcome of an S3 operation as observed by `with_auto_refresh`:
`IsSuccess()`, `GetError().GetExceptionName()`, `GetError().GetMessage()`. -/
structure S3Outcome where
  success : Bool
  exceptionName : String
  message : String
deriving DecidableEq, Repr

/-- The `is_expired` test of `with_auto_refresh`: the exception name or the
message contains `ExpiredToken` or `RequestExpired`. -/
def isExpiredOutcome (o : S3Outcome) : Bool :=
  strContainsSub o.exceptionName "ExpiredToken" ||
  strContainsSub o.exceptionName "RequestExpired" ||
  strContainsSub o.message "ExpiredToken" ||
  strContainsSub o.message "RequestExpired"

/-- The retry loop of `with_auto_refresh`.  `op k` is the outcome of invoking
the callable with the k-th client (client 0 from the initial `get_client`,
client k > 0 from the k-th `force_refresh`).  `remaining` counts the retries
still allowed; the code's guard `attempt >= kMaxExpiredRetries` is `remaining
= 0` under the invariant `attempt + remaining = kMaxExpiredRetries`. -/
def withAutoRefreshGo (op : Nat → S3Outcome) (attempt : Nat) : Nat → S3Outcome × Nat
  | 0 =>
    (op attempt, attempt)
  | remaining + 1 =>
    if (op attempt).success then (op attempt, attempt)
    else if ¬ isExpiredOutcome (op attempt) then (op attempt, attempt)
    else withAutoRefreshGo op (attempt + 1) remaining

/-- `RefreshingS3Client::with_auto_refresh`: returns the final outcome and the
number of forced refreshes performed. -/
def with_auto_refresh (op : Nat → S3Outcome) : S3Outcome × Nat :=
  withAutoRefreshGo op 0 kMaxExpiredRetries

/- ---------------------------------------------------------------------
   The per-upload PUT retry loop (S3UploadAsync.cpp, Step 14)
   --------------------------------------------------------------------- -/

/-- Observable result of the Step-14 retry loop. `sleeps` records the backoff
sleeps performed, in seconds and in order. -/
structure RetryResult where
  cancelled : Bool
  uploadSuccess : Bool
  numPuts : Nat
  sleeps : List Nat
  finalErrorMsg : String
deriving DecidableEq, Repr

/-- The body of `for (retryCount = 0; retryCount <= MAX_UPLOAD_RETRIES; ...)`.
`put k` is `outcome.IsSuccess()` of the k-th PutObject, `err k` the error
message of a failed k-th PutObject.  `remaining` counts the iterations still
allowed after this one; the code's `retryCount == MAX_UPLOAD_RETRIES` exit is
`remaining = 0` under the invariant `retryCount + remaining =
MAX_UPLOAD_RETRIES`. -/
def uploadRetryGo (put : Nat → Bool) (err : Nat → String) (retryCount : Nat) :
    Nat → RetryResult
  | 0 =>
    if put retryCount then
      { cancelled := false, uploadSuccess := true, numPuts := 1,
        sleeps := if retryCount > 0 then [retryCount * 2] else [], finalErrorMsg := "" }
    else
      { cancelled := false, uploadSuccess := false, numPuts := 1,
        sleeps := if retryCount > 0 then [retryCount * 2] else [],
        finalErrorMsg := "S3 upload failed (attempt " ++ toString (retryCount + 1) ++ "): "
          ++ err retryCount }
  | remaining + 1 =>
    if put retryCount then
      { cancelled := false, uploadSuccess := true, numPuts := 1,
        sleeps := if retryCount > 0 then [retryCount * 2] else [], finalErrorMsg := "" }
    else
      { cancelled := false
        uploadSuccess := (uploadRetryGo put err (retryCount + 1) remaining).uploadSuccess
        numPuts := (uploadRetryGo put err (retryCount + 1) remaining).numPuts + 1
        sleeps := (if retryCount > 0 then [retryCount * 2] else [])
          ++ (uploadRetryGo put err (retryCount + 1) remaining).sleeps
        finalErrorMsg := (uploadRetryGo put err (retryCount + 1) remaining).finalErrorMsg }

/-- The Step-14 retry loop.  The cancellation flag is checked at the top of
every iteration; it is an atomic constant of the record in this model, so a
set flag cancels before the first PUT. -/
def uploadRetryLoop (shouldCancel : Bool) (put : Nat → Bool) (err : Nat → String) :
    RetryResult :=
  if shouldCancel then
    { cancelled := true, uploadSuccess := false, numPuts := 0, sleeps := [], finalErrorMsg := "" }
  else uploadRetryGo put err 0 MAX_UPLOAD_RETRIES

/- ---------------------------------------------------------------------
   The worker (S3UploadAsync.cpp)
   --------------------------------------------------------------------- -/

/-- An entry of the global upload task queue. -/
structure UploadTask where
  uploadId : String
  region : String
  bucketName : String
  objectKey : String
  localFilePath : String
  dataId : String
  patientId : String
deriving DecidableEq, Repr

/-- External effects observed by `asyncUploadWorker`, as oracles:
SDK/filesystem state, PutObject outcomes per upload id and attempt, and the
backend confirmation answers (keyed by the full argument tuples of
`ConfirmUploadRawFile` / `ConfirmIncrementalUploadFile`). -/
structure WorkerEnv where
  sdkInit : Bool
  fileExists : String → Bool
  fileSize : String → Int
  clientOk : Bool
  fileOpenOk : String → Bool
  putSucceeds : String → Nat → Bool
  putError : String → Nat → String
  confirmRawOk : String → String → String → Int → String → Bool
  confirmIncrementalOk : String → String → String → Int → String → Bool

/-- A confirmation request issued to the backend. -/
inductive ConfirmCall
  | raw (dataId uploadDataName patientId : String) (uploadFileSizeBytes : Int)
      (s3ObjectKey : String)
  | incremental (dataId uploadDataName patientId : String) (uploadFileSizeBytes : Int)
      (s3ObjectKey : String)
deriving DecidableEq, Repr

/-- The Step-15.1 loop of `asyncUploadWorker`: walk the group; on the first
record whose status is neither UPLOAD_SUCCESS nor CONFIRM_SUCCESS, break with
`false` (keeping the partial size sum accumulated so far); otherwise
accumulate `totalSize`. -/
def checkAllCompleted : List AsyncUploadProgress → Bool × Int
  | [] => (true, 0)
  | u :: rest =>
    if u.status ≠ UploadStatus.UPLOAD_SUCCESS ∧ u.status ≠ UploadStatus.CONFIRM_SUCCESS then
      (false, 0)
    else
      let r := checkAllCompleted rest
      (r.1, u.totalSize + r.2)

/-- Steps 16/15.1/15.2 of `asyncUploadWorker`: the confirmation phase entered
after a successful upload.  Returns the tracker and the backend confirmation
calls issued (in order). -/
def handleConfirmation (env : WorkerEnv) (tr : Tracker) (uploadId : String) :
    Tracker × List ConfirmCall :=
  match getUpload tr uploadId with
  | none => (tr, [])
  | some progress =>
    -- 17.0: REAL_TIME_APPEND confirms this very file immediately.
    let incrStep :=
      if progress.fileOperationType = FileOperationType.REAL_TIME_APPEND then
        let actualFileName := extractFileName progress.s3ObjectKey
        let ok := env.confirmIncrementalOk progress.dataId actualFileName progress.patientId
          progress.totalSize progress.s3ObjectKey
        (updateProgress tr uploadId
          (if ok then UploadStatus.CONFIRM_SUCCESS else UploadStatus.CONFIRM_FAILED) "",
         [ConfirmCall.incremental progress.dataId actualFileName progress.patientId
            progress.totalSize progress.s3ObjectKey])
      else (tr, [])
    let tr1 := incrStep.1
    let calls1 := incrStep.2
    -- Step 15.1: is this the last file of the folder upload?
    let allUploads := getAllUploadsByDataId tr1 progress.dataId
    let completed := checkAllCompleted allUploads
    let allFilesCompleted := completed.1
    let totalFolderSize := completed.2
    -- Step 15.2: batch confirmation.
    if progress.fileOperationType = FileOperationType.BATCH_CREATE ∧ allFilesCompleted
        ∧ ¬ progress.confirmationAttempted ∧ progress.dataId ≠ "" then
      let tr2 := setConfirmationAttempted tr1 uploadId
      let confirmObjectKey :=
        if allUploads.length > 1 then parentDirKey progress.s3ObjectKey
        else progress.s3ObjectKey
      let ok := env.confirmRawOk progress.dataId progress.uploadDataName progress.patientId
        totalFolderSize confirmObjectKey
      let newStatus := if ok then UploadStatus.CONFIRM_SUCCESS else UploadStatus.CONFIRM_FAILED
      let tr3 := tr2.map (fun p =>
        if strStartsWith p.uploadId (getUploadIdPrefixByDataId progress.dataId)
            && p.status == UploadStatus.UPLOAD_SUCCESS then
          { p with status := newStatus }
        else p)
      (tr3, calls1 ++ [ConfirmCall.raw progress.dataId progress.uploadDataName
        progress.patientId totalFolderSize confirmObjectKey])
    else (tr1, calls1)

/-- `asyncUploadWorker`: one task processed to completion.  Returns the
tracker and the confirmation calls issued. -/
def asyncUploadWorker (env : WorkerEnv) (tr : Tracker) (task : UploadTask) :
    Tracker × List ConfirmCall :=
  match getUpload tr task.uploadId with
  | none => (tr, [])
  | some progress0 =>
    let tr := updateProgress tr task.uploadId UploadStatus.UPLOAD_UPLOADING ""
    -- Step 3: cancellation before starting.
    if progress0.shouldCancel then
      (updateProgress tr task.uploadId UploadStatus.UPLOAD_CANCELLED "", [])
    -- Step 4: validate input parameters.
    else if task.region = "" ∨ task.bucketName = "" ∨ task.objectKey = ""
        ∨ task.localFilePath = "" ∨ task.patientId = "" then
      (updateProgress tr task.uploadId UploadStatus.UPLOAD_FAILED "Invalid parameters", [])
    -- Step 5: SDK initialized?
    else if ¬ env.sdkInit then
      (updateProgress tr task.uploadId UploadStatus.UPLOAD_FAILED "AWS SDK not initialized", [])
    -- Step 6: local file exists?
    else if ¬ env.fileExists task.localFilePath then
      (updateProgress tr task.uploadId UploadStatus.UPLOAD_FAILED "Local file does not exist", [])
    else
      -- Step 7: size the file.
      let fileSize := env.fileSize task.localFilePath
      if fileSize < 0 then
        (updateProgress tr task.uploadId UploadStatus.UPLOAD_FAILED "Cannot read file size", [])
      else
        let tr := setTotalSize tr task.uploadId fileSize
        -- Step 9: S3 client proxy.
        if ¬ env.clientOk then
          (updateProgress tr task.uploadId UploadStatus.UPLOAD_FAILED
            "Failed to create S3 client proxy", [])
        -- Step 12: open the file stream.
        else if ¬ env.fileOpenOk task.localFilePath then
          (updateProgress tr task.uploadId UploadStatus.UPLOAD_FAILED
            ("Cannot open file for reading: " ++ task.localFilePath), [])
        else
          -- Step 14: retry loop.
          let r := uploadRetryLoop progress0.shouldCancel
            (env.putSucceeds task.uploadId) (env.putError task.uploadId)
          if r.cancelled then
            (updateProgress tr task.uploadId UploadStatus.UPLOAD_CANCELLED "", [])
          -- Step 15/16: final result and confirmation.
          else if r.uploadSuccess then
            handleConfirmation env
              (updateProgress tr task.uploadId UploadStatus.UPLOAD_SUCCESS "") task.uploadId
          else
            (updateProgress tr task.uploadId UploadStatus.UPLOAD_FAILED r.finalErrorMsg, [])

/-- Serial FIFO processing of a list of queued tasks by the single worker. -/
def runWorker (env : WorkerEnv) (tr : Tracker) : List UploadTask → Tracker × List ConfirmCall
  | [] => (tr, [])
  | task :: rest =>
    let step := asyncUploadWorker env tr task
    let r := runWorker env step.1 rest
    (r.1, step.2 ++ r.2)

/- ---------------------------------------------------------------------
   uploadWorkerThread / ensureWorkerThreadRunning (S3UploadAsync.cpp)
   --------------------------------------------------------------------- -/

/-- `uploadWorkerThread`, observed for a bounded number of loop iterations
(each iteration is one condition-variable wake, at most 5 seconds apart).
`shutdown` is `g_shouldShutdown`, constant over the window.  Returns whether
the thread exited its loop within the window, plus tracker and queue.  The
loop's only exits are the `while (!g_shouldShutdown)` condition and the inner
`break` when shutdown is requested with an empty queue; an idle wake with an
empty queue merely `continue`s. -/
def uploadWorkerThreadRun (env : WorkerEnv) (shutdown : Bool) :
    Nat → Tracker → List UploadTask → Bool × Tracker × List UploadTask
  | 0, tr, queue => (false, tr, queue)
  | n + 1, tr, queue =>
    if shutdown then (true, tr, queue)
    else
      match queue with
      | [] => uploadWorkerThreadRun env shutdown n tr []
      | task :: rest =>
        let step := asyncUploadWorker env tr task
        uploadWorkerThreadRun env shutdown n step.1 rest

/-- The `needStart` decision of `ensureWorkerThreadRunning`: start when the
running flag is down, or when the heartbeat is more than 30 seconds old. -/
def ensureWorkerNeedStart (workerRunning : Bool) (heartbeatElapsedSeconds : Int) : Bool :=
  if ¬ workerRunning then true
  else heartbeatElapsedSeconds > 30

/- ---------------------------------------------------------------------
   UploadFileAsync (S3UploadAsync.cpp)
   --------------------------------------------------------------------- -/

/-- The responses `UploadFileAsync` can return (each is rendered by
`create_response`; `limitExceeded` is the "Upload limit exceeded" error built
at Step 2.1, carrying the observed total). -/
inductive UploadResponse
  | invalidParams
  | sdkNotInitialized
  | limitExceeded (totalUploads : Nat)
  | accepted (uploadId : String)
deriving DecidableEq, Repr

/-- Result of a submission: the response plus the tracker and queue after. -/
structure SubmitResult where
  response : UploadResponse
  tracker : Tracker
  queue : List UploadTask
deriving Repr

/-- The `(fileOperationType == REAL_TIME_APPEND) ? REAL_TIME_APPEND :
BATCH_CREATE` selection of Step 4 (REAL_TIME_APPEND has enum value 1). -/
def selectFileOperationType (fileOperationType : Int) : FileOperationType :=
  if fileOperationType = 1 then FileOperationType.REAL_TIME_APPEND
  else FileOperationType.BATCH_CREATE

/-- `UploadFileAsync`.  The six `const char*` arguments are `Option String`
(`none` is a null pointer); `now` is the microsecond timestamp taken at Step
3; `tr` and `queue` are the tracker and the global task queue. -/
def UploadFileAsync (tr : Tracker) (queue : List UploadTask) (sdkInit : Bool)
    (region bucketName objectKey localFilePath dataId patientId : Option String)
    (fileOperationType : Int) (now : Int) : SubmitResult :=
  match region, bucketName, objectKey, localFilePath, dataId, patientId with
  | some region, some bucketName, some objectKey, some localFilePath,
      some dataId, some patientId =>
    -- Step 2: AWS SDK initialized?
    if ¬ sdkInit then { response := .sdkNotInitialized, tracker := tr, queue := queue }
    else
      -- Step 2.1: upload queue limit.
      let totalUploads := getTotalUploads tr
      if totalUploads ≥ MAX_UPLOAD_LIMIT ∧ (getAllUploadsByDataId tr dataId).isEmpty then
        { response := .limitExceeded totalUploads, tracker := tr, queue := queue }
      else
        -- Steps 3-4: generate the id, register the record, set the mode.
        let uploadId := getUploadId dataId now
        let tr1 := addUpload tr uploadId localFilePath objectKey patientId now
        let tr2 := setFileOperationType tr1 uploadId (selectFileOperationType fileOperationType)
        -- Step 7: enqueue the task.
        let task : UploadTask :=
          { uploadId := uploadId, region := region, bucketName := bucketName,
            objectKey := objectKey, localFilePath := localFilePath,
            dataId := dataId, patientId := patientId }
        { response := .accepted uploadId, tracker := tr2, queue := queue ++ [task] }
  | _, _, _, _, _, _ => { response := .invalidParams, tracker := tr, queue := queue }

/- ---------------------------------------------------------------------
   GetAsyncUploadStatusBytes (S3UploadAsync.cpp): status aggregation
   --------------------------------------------------------------------- -/

/-- The Step-3 accumulator of `GetAsyncUploadStatusBytes`. -/
structure StatusAgg where
  allCompleted : Bool
  anyFailed : Bool
  anyUploading : Bool
  errorMessage : String
  totalSize : Int
  uploadedCount : Nat
  uploadedSize : Int
deriving DecidableEq, Repr

/-- One iteration of the Step-3 loop. -/
def statusAggStep (acc : StatusAgg) (progress : AsyncUploadProgress) : StatusAgg :=
  let acc := { acc with totalSize := acc.totalSize + progress.totalSize }
  if progress.status = UploadStatus.UPLOAD_SUCCESS then
    { acc with uploadedCount := acc.uploadedCount + 1,
               uploadedSize := acc.uploadedSize + progress.totalSize }
  else if progress.status = UploadStatus.UPLOAD_FAILED then
    { acc with anyFailed := true,
               errorMessage := if acc.errorMessage = "" then progress.errorMessage
                               else acc.errorMessage,
               allCompleted := false }
  else if progress.status = UploadStatus.UPLOAD_UPLOADING
      ∨ progress.status = UploadStatus.UPLOAD_PENDING
      ∨ progress.status = UploadStatus.UPLOAD_CANCELLED then
    { acc with anyUploading := true, allCompleted := false }
  else acc

/-- The Step-3 aggregation over the group. -/
def statusAgg (allUploads : List AsyncUploadProgress) : StatusAgg :=
  allUploads.foldl statusAggStep
    { allCompleted := true, anyFailed := false, anyUploading := false,
      errorMessage := "", totalSize := 0, uploadedCount := 0, uploadedSize := 0 }

/-- Step 4 of `GetAsyncUploadStatusBytes`: the aggregate `"status"` field. -/
def overallStatus (allUploads : List AsyncUploadProgress) : UploadStatus :=
  let a := statusAgg allUploads
  if a.anyFailed then UploadStatus.UPLOAD_FAILED
  else if a.allCompleted ∧ ¬ a.anyUploading then
    let allConfirmed := allUploads.all (fun p => p.status == UploadStatus.CONFIRM_SUCCESS)
    let anyConfirmFailed := allUploads.any (fun p => p.status == UploadStatus.CONFIRM_FAILED)
    if allConfirmed then UploadStatus.CONFIRM_SUCCESS
    else if anyConfirmFailed then UploadStatus.CONFIRM_FAILED
    else UploadStatus.UPLOAD_SUCCESS
  else UploadStatus.UPLOAD_UPLOADING

/- ---------------------------------------------------------------------
   Scenario apparatus for the batch-confirmation trace (claim about the
   BatchCreate confirmation of a folder group, spec S4)
   --------------------------------------------------------------------- -/

/-- The record `UploadFileAsync` registers for a task of a BatchCreate group
with data id `d`, as it sits in the tracker before the worker touches it. -/
def batchPendingRec (d : String) (t : UploadTask) : AsyncUploadProgress :=
  { uploadId := t.uploadId
    status := .UPLOAD_PENDING
    totalSize := 0
    errorMessage := ""
    s3ObjectKey := t.objectKey
    localFilePath := t.localFilePath
    shouldCancel := false
    dataId := d
    uploadDataName := extractUploadDataName t.objectKey
    patientId := t.patientId
    confirmationAttempted := false
    fileOperationType := .BATCH_CREATE }

/-- The same record after its own upload has succeeded: marked
UPLOAD_SUCCESS and sized from the file. -/
def batchDoneRec (env : WorkerEnv) (d : String) (t : UploadTask) : AsyncUploadProgress :=
  { batchPendingRec d t with
    status := .UPLOAD_SUCCESS
    totalSize := env.fileSize t.localFilePath }

/-- The tracker record of task `t` once the tasks whose ids are in `doneIds`
have been processed. -/
def recAt (env : WorkerEnv) (d : String) (doneIds : List String) (t : UploadTask) :
    AsyncUploadProgress :=
  if t.uploadId ∈ doneIds then batchDoneRec env d t else batchPendingRec d t

/-- A folder-upload scenario in BatchCreate mode: a non-empty data id, tasks
with distinct ids all carrying the `d ++ "_"` prefix and non-empty parameters,
an initialized SDK, readable existing files, and a PUT retry loop that ends in
success for every task. -/
def batchScenario (env : WorkerEnv) (d : String) (tasks : List UploadTask) : Prop :=
  d ≠ "" ∧
  (tasks.map (fun t => t.uploadId)).Nodup ∧
  env.sdkInit = true ∧ env.clientOk = true ∧
  ∀ t ∈ tasks,
    strStartsWith t.uploadId (getUploadIdPrefixByDataId d) = true ∧
    t.region ≠ "" ∧ t.bucketName ≠ "" ∧ t.objectKey ≠ "" ∧
    t.localFilePath ≠ "" ∧ t.patientId ≠ "" ∧
    env.fileExists t.localFilePath = true ∧
    0 ≤ env.fileSize t.localFilePath ∧
    env.fileOpenOk t.localFilePath = true ∧
    (uploadRetryLoop false (env.putSucceeds t.uploadId) (env.putError t.uploadId)).uploadSuccess
      = true

/-- The single batch confirmation expected for a completed group: issued by
the record of the last-finishing task `t`, with `total_folder_size` the sum of
the group's file sizes and the object key adjusted for folder uploads. -/
def batchConfirmCallOf (env : WorkerEnv) (d : String) (tasks : List UploadTask)
    (t : UploadTask) : ConfirmCall :=
  ConfirmCall.raw d (extractUploadDataName t.objectKey) t.patientId
    (tasks.map (fun u => env.fileSize u.localFilePath)).sum
    (if tasks.length > 1 then parentDirKey t.objectKey else t.objectKey)

/-- The status every group record ends in after the batch confirmation
triggered by the last task `t`. -/
def batchFinalStatus (env : WorkerEnv) (d : String) (tasks : List UploadTask)
    (t : UploadTask) : UploadStatus :=
  if env.confirmRawOk d (extractUploadDataName t.objectKey) t.patientId
      (tasks.map (fun u => env.fileSize u.localFilePath)).sum
      (if tasks.length > 1 then parentDirKey t.objectKey else t.objectKey)
    then UploadStatus.CONFIRM_SUCCESS else UploadStatus.CONFIRM_FAILED

/- ---------------------------------------------------------------------
   Concrete instances used by witnesses and counterexamples
   --------------------------------------------------------------------- -/

/-- A fully permissive environment: SDK up, every file exists with size 10,
every PUT and every confirmation succeeds. -/
def envW : WorkerEnv :=
  { sdkInit := true
    fileExists := fun _ => true
    fileSize := fun _ => 10
    clientOk := true
    fileOpenOk := fun _ => true
    putSucceeds := fun _ _ => true
    putError := fun _ _ => "err"
    confirmRawOk := fun _ _ _ _ _ => true
    confirmIncrementalOk := fun _ _ _ _ _ => true }

/-- Three concrete tasks of one folder upload under data id "d" (spec S4). -/
def tasksW : List UploadTask :=
  [ { uploadId := "d_1", region := "r", bucketName := "b",
      objectKey := "p/t/source_data/d/scan/a", localFilePath := "/a",
      dataId := "d", patientId := "pt" },
    { uploadId := "d_2", region := "r", bucketName := "b",
      objectKey := "p/t/source_data/d/scan/b", localFilePath := "/b",
      dataId := "d", patientId := "pt" },
    { uploadId := "d_3", region := "r", bucketName := "b",
      objectKey := "p/t/source_data/d/scan/c", localFilePath := "/c",
      dataId := "d", patientId := "pt" } ]

/-- A record with the given status and size, under data id "w". -/
def recWith (uploadId : String) (status : UploadStatus) (totalSize : Int) :
    AsyncUploadProgress :=
  { uploadId := uploadId, status := status, totalSize := totalSize, errorMessage := "",
    s3ObjectKey := "", localFilePath := "", shouldCancel := false, dataId := "w",
    uploadDataName := "", patientId := "", confirmationAttempted := false,
    fileOperationType := .BATCH_CREATE }

/-- A tracker holding exactly 100 records, all under data id "a". -/
def fullTracker : Tracker :=
  (List.range MAX_UPLOAD_LIMIT).map
    (fun i => recWith ("a_" ++ toString i) .UPLOAD_PENDING 0)

/-- A tracker built by two `addUpload` calls: first "d_1", then "d_2". -/
def twoInsertTracker : Tracker :=
  addUpload (addUpload [] "d_1" "/f1" "k1/x" "pt" 1) "d_2" "/f2" "k2/x" "pt" 2

/-- A failed outcome with no expired-credential marker. -/
def failOutcome : S3Outcome :=
  { success := false, exceptionName := "AccessDenied", message := "Access Denied" }

/-- The record `UploadFileAsync [] ... "d" ... 2 5` registers (used as a
witness input). -/
def modeWitnessRec : AsyncUploadProgress :=
  { uploadId := "d_5", status := .UPLOAD_PENDING, totalSize := 0, errorMessage := "",
    s3ObjectKey := "k/x", localFilePath := "/f", shouldCancel := false, dataId := "d",
    uploadDataName := "", patientId := "p", confirmationAttempted := false,
    fileOperationType := .BATCH_CREATE }

/- =====================================================================
   Helper lemmas
   ===================================================================== -/

theorem updateProgressRec_uploadId (uploadId : String) (st : UploadStatus) (err : String)
    (p : AsyncUploadProgress) : (updateProgressRec uploadId st err p).uploadId = p.uploadId := by
  unfold updateProgressRec; split <;> rfl

theorem setTotalSizeRec_uploadId (uploadId : String) (size : Int) (p : AsyncUploadProgress) :
    (setTotalSizeRec uploadId size p).uploadId = p.uploadId := by
  unfold setTotalSizeRec; split <;> rfl

theorem setConfirmationAttemptedRec_uploadId (uploadId : String) (p : AsyncUploadProgress) :
    (setConfirmationAttemptedRec uploadId p).uploadId = p.uploadId := by
  unfold setConfirmationAttemptedRec; split <;> rfl

theorem setFileOperationTypeRec_uploadId (uploadId : String) (m : FileOperationType)
    (p : AsyncUploadProgress) : (setFileOperationTypeRec uploadId m p).uploadId = p.uploadId := by
  unfold setFileOperationTypeRec; split <;> rfl

theorem getUpload_cons (p : AsyncUploadProgress) (rest : Tracker) (uploadId : String) :
    getUpload (p :: rest) uploadId
      = if p.uploadId == uploadId then some p else getUpload rest uploadId := by
  cases h : (p.uploadId == uploadId) <;> simp [getUpload, List.find?_cons, h]

theorem getUpload_map (f : AsyncUploadProgress → AsyncUploadProgress)
    (hf : ∀ p, (f p).uploadId = p.uploadId) (tr : Tracker) (uploadId : String) :
    getUpload (tr.map f) uploadId = (getUpload tr uploadId).map f := by
  induction tr with
  | nil => rfl
  | cons p rest ih =>
    rw [List.map_cons, getUpload_cons, getUpload_cons, hf p]
    by_cases h : (p.uploadId == uploadId) = true
    · simp [h]
    · simp [h, ih]

theorem checkAllCompleted_fst_true_iff (l : List AsyncUploadProgress) :
    (checkAllCompleted l).1 = true ↔
      ∀ u ∈ l, u.status = UploadStatus.UPLOAD_SUCCESS
        ∨ u.status = UploadStatus.CONFIRM_SUCCESS := by
  induction l with
  | nil => simp [checkAllCompleted]
  | cons u rest ih =>
    unfold checkAllCompleted
    split_ifs with h
    · simp only [List.mem_cons]
      constructor
      · intro hfalse; cases hfalse
      · intro hall
        rcases hall u (Or.inl rfl) with h' | h' <;> exact absurd h' (by tauto)
    · rcases not_and_or.mp h with h' | h' <;> push_neg at h' <;>
        simp [ih, h']

theorem checkAllCompleted_of_all_success (l : List AsyncUploadProgress)
    (h : ∀ u ∈ l, u.status = UploadStatus.UPLOAD_SUCCESS) :
    checkAllCompleted l = (true, (l.map (fun u => u.totalSize)).sum) := by
  induction l with
  | nil => simp [checkAllCompleted]
  | cons u rest ih =>
    have hu := h u (by simp)
    unfold checkAllCompleted
    rw [if_neg (by simp [hu]), ih (fun v hv => h v (by simp [hv]))]
    simp

theorem statusAgg_foldl_uploadedCount (l : List AsyncUploadProgress) (acc : StatusAgg) :
    (l.foldl statusAggStep acc).uploadedCount
      = acc.uploadedCount
        + (l.filter (fun p => p.status == UploadStatus.UPLOAD_SUCCESS)).length := by
  induction l generalizing acc with
  | nil => simp
  | cons p rest ih =>
    rw [List.foldl_cons, ih]
    unfold statusAggStep
    by_cases h : p.status = UploadStatus.UPLOAD_SUCCESS
    · simp [h, List.filter_cons]; omega
    · split_ifs with h2 h3 <;> simp [h, List.filter_cons]

theorem statusAgg_foldl_uploadedSize (l : List AsyncUploadProgress) (acc : StatusAgg) :
    (l.foldl statusAggStep acc).uploadedSize
      = acc.uploadedSize
        + ((l.filter (fun p => p.status == UploadStatus.UPLOAD_SUCCESS)).map
            (fun p => p.totalSize)).sum := by
  induction l generalizing acc with
  | nil => simp
  | cons p rest ih =>
    rw [List.foldl_cons, ih]
    unfold statusAggStep
    by_cases h : p.status = UploadStatus.UPLOAD_SUCCESS
    · simp [h, List.filter_cons]; ring
    · split_ifs with h2 h3 <;> simp [h, List.filter_cons]

theorem statusAgg_anyFailed_false :
    ∀ (l : List AsyncUploadProgress) (acc : StatusAgg),
      (∀ p ∈ l, p.status ≠ UploadStatus.UPLOAD_FAILED) → acc.anyFailed = false →
      (l.foldl statusAggStep acc).anyFailed = false := by
  intro l
  induction l with
  | nil => intro acc _ h0; simpa using h0
  | cons p rest ih =>
    intro acc h h0
    rw [List.foldl_cons]
    refine ih _ (fun q hq => h q (List.mem_cons_of_mem _ hq)) ?_
    have hp := h p (List.mem_cons_self _ _)
    unfold statusAggStep
    split_ifs <;> simp_all

theorem statusAgg_allCompleted_mono :
    ∀ (l : List AsyncUploadProgress) (acc : StatusAgg), acc.allCompleted = false →
      (l.foldl statusAggStep acc).allCompleted = false := by
  intro l
  induction l with
  | nil => intro acc h0; simpa using h0
  | cons p rest ih =>
    intro acc h0
    rw [List.foldl_cons]
    refine ih _ ?_
    unfold statusAggStep
    split_ifs <;> simp_all

theorem statusAgg_allCompleted_false_of_cancelled :
    ∀ (l : List AsyncUploadProgress) (acc : StatusAgg) (q : AsyncUploadProgress),
      q ∈ l → q.status = UploadStatus.UPLOAD_CANCELLED →
      (l.foldl statusAggStep acc).allCompleted = false := by
  intro l
  induction l with
  | nil => intro acc q hq; cases hq
  | cons p rest ih =>
    intro acc q hq hqs
    rw [List.foldl_cons]
    rcases List.mem_cons.mp hq with rfl | hq'
    · apply statusAgg_allCompleted_mono
      unfold statusAggStep
      split_ifs <;> simp_all
    · exact ih _ q hq' hqs

/- =====================================================================
   C7 — credential cache refresh policy
   ===================================================================== -/

/-- C7 (amended): `get_client` serves the cached entry iff the tenant matches,
a client exists, `refresh_margin < expiration` and `now ≤ expiration −
refresh_margin`; hence every cached entry served satisfies `now +
refresh_margin ≤ expiration` (validity of at least `refresh_margin` seconds,
with equality allowed, not the strict inequality the claim states); whenever
the tenant differs, no client exists, or `expiration − now < refresh_margin`,
a refresh is performed before returning. -/
theorem get_client_cache_spec (st : S3ClientManagerState) (pid : String)
    (now fetched : Int) :
    ((get_client st pid now fetched).refreshed = false ↔
      (pid = st.current_patient_id ∧ st.hasClient = true ∧
        st.refresh_margin < st.expiration ∧ now ≤ st.expiration - st.refresh_margin))
    ∧ ((get_client st pid now fetched).refreshed = false →
        now + st.refresh_margin ≤ st.expiration)
    ∧ (pid ≠ st.current_patient_id ∨ st.hasClient = false ∨
        st.expiration - now < st.refresh_margin →
        (get_client st pid now fetched).refreshed = true) := by
  unfold get_client need_refresh
  split_ifs with h1 h2 h3 h4 <;>
    refine ⟨⟨fun hr => ?_, fun hc => ?_⟩, fun hr => ?_, fun hor => ?_⟩ <;>
    simp_all <;> omega

/-- Witness for C7: a differing tenant forces a refresh. -/
theorem get_client_cache_spec_witness :
    (get_client ⟨300, "p", true, 1000⟩ "q" 700 2000).refreshed = true :=
  (get_client_cache_spec ⟨300, "p", true, 1000⟩ "q" 700 2000).2.2 (Or.inl (by decide))

/-- C7 counterexample: with `refresh_margin = 300`, `expiration = 1000` and
`now = 700` (the boundary `now + refresh_margin = expiration`), the cached
entry is served, yet the claim's strict `now + refresh_margin < expiration`
fails. -/
theorem get_client_strict_margin_cex :
    (get_client ⟨300, "p", true, 1000⟩ "p" 700 999).refreshed = false ∧
      ¬ ((700 : Int) + 300 < 1000) := by decide

/- =====================================================================
   C6 — worker lifecycle: no idle timeout exists
   ===================================================================== -/

/-- C6 (amended): the worker thread never exits because of idleness — with no
shutdown request it keeps looping on its 5-second waits no matter how long
the queue stays empty; it exits (promptly) exactly when shutdown is
requested; and a subsequent submission finding the running flag down starts a
new worker (`ensureWorkerThreadRunning`). -/
theorem uploadWorkerThread_exit_spec :
    (∀ (env : WorkerEnv) (n : Nat) (tr : Tracker) (queue : List UploadTask),
        (uploadWorkerThreadRun env false n tr queue).1 = false)
    ∧ (∀ (env : WorkerEnv) (n : Nat) (tr : Tracker) (queue : List UploadTask),
        (uploadWorkerThreadRun env true (n + 1) tr queue).1 = true)
    ∧ (∀ heartbeatElapsed : Int, ensureWorkerNeedStart false heartbeatElapsed = true) := by
  refine ⟨?_, ?_, ?_⟩
  · intro env n
    induction n with
    | zero => intro tr queue; rfl
    | succ n ih =>
      intro tr queue
      cases queue with
      | nil => exact ih tr []
      | cons t rest => exact ih _ rest
  · intro env n tr queue; rfl
  · intro e; rfl

/-- C6 counterexample: 180 consecutive idle wakes — 15 minutes of idleness at
the 5-second wait timeout — with an empty queue and no shutdown request leave
the worker still running: `uploadWorkerThread` has no idle timeout, so the
claimed exit after `WORKER_IDLE_TIMEOUT` never happens. -/
theorem uploadWorkerThread_idle_cex :
    (uploadWorkerThreadRun envW false 180 [] []).1 = false := by decide

/-- Reduction of `UploadFileAsync` for non-null parameters and an initialized
SDK: either the limit rejection or the acceptance path. -/
theorem UploadFileAsync_valid_eq (tr : Tracker) (queue : List UploadTask)
    (region bucketName objectKey localFilePath dataId patientId : String)
    (i now : Int) :
    UploadFileAsync tr queue true (some region) (some bucketName) (some objectKey)
        (some localFilePath) (some dataId) (some patientId) i now
      = if getTotalUploads tr ≥ MAX_UPLOAD_LIMIT
            ∧ (getAllUploadsByDataId tr dataId).isEmpty = true then
          { response := .limitExceeded (getTotalUploads tr), tracker := tr, queue := queue }
        else
          { response := .accepted (getUploadId dataId now),
            tracker := setFileOperationType
              (addUpload tr (getUploadId dataId now) localFilePath objectKey patientId now)
              (getUploadId dataId now) (selectFileOperationType i),
            queue := queue ++
              [ { uploadId := getUploadId dataId now, region := region,
                  bucketName := bucketName, objectKey := objectKey,
                  localFilePath := localFilePath, dataId := dataId,
                  patientId := patientId } ] } :=
  rfl

/- =====================================================================
   C9 — operation-mode selection
   ===================================================================== -/

theorem selectFileOperationType_iff (i : Int) :
    selectFileOperationType i = FileOperationType.REAL_TIME_APPEND ↔ i = 1 := by
  unfold selectFileOperationType
  split_ifs with h <;> simp [h]

theorem setFileOperationType_mem (tr : Tracker) (uploadId : String) (m : FileOperationType)
    (r : AsyncUploadProgress) (hr : r ∈ setFileOperationType tr uploadId m)
    (hid : r.uploadId = uploadId) : r.fileOperationType = m := by
  unfold setFileOperationType at hr
  rcases List.mem_map.mp hr with ⟨p, hp, rfl⟩
  unfold setFileOperationTypeRec at *
  by_cases h : (p.uploadId == uploadId) = true
  · simp [h]
  · rw [if_neg h] at hid ⊢
    exact absurd (by simpa using hid) (by simpa using h)

/-- C9: `UploadFileAsync` stores RealtimeAppend on the record exactly when the
`fileOperationType` argument equals 1; every other integer (negative, 0, or
greater than 1) yields BatchCreate. -/
theorem UploadFileAsync_operation_mode (i : Int) :
    (selectFileOperationType i = FileOperationType.REAL_TIME_APPEND ↔ i = 1)
    ∧ ∀ (tr : Tracker) (queue : List UploadTask)
        (region bucketName objectKey localFilePath dataId patientId : String) (now : Int)
        (r : AsyncUploadProgress),
        (UploadFileAsync tr queue true (some region) (some bucketName) (some objectKey)
          (some localFilePath) (some dataId) (some patientId) i now).response
            = UploadResponse.accepted (getUploadId dataId now) →
        r ∈ (UploadFileAsync tr queue true (some region) (some bucketName) (some objectKey)
          (some localFilePath) (some dataId) (some patientId) i now).tracker →
        r.uploadId = getUploadId dataId now →
        (r.fileOperationType = FileOperationType.REAL_TIME_APPEND ↔ i = 1) := by
  refine ⟨selectFileOperationType_iff i, ?_⟩
  intro tr queue region bucketName objectKey localFilePath dataId patientId now r hacc hr hid
  rw [UploadFileAsync_valid_eq] at hacc hr
  by_cases hlim : getTotalUploads tr ≥ MAX_UPLOAD_LIMIT
      ∧ (getAllUploadsByDataId tr dataId).isEmpty = true
  · rw [if_pos hlim] at hacc
    simp at hacc
  · rw [if_neg hlim] at hr
    rw [setFileOperationType_mem _ _ _ r hr hid]
    exact selectFileOperationType_iff i

/-- Witness for C9: submitting with `fileOperationType = 2` stores BatchCreate
(the mode is RealtimeAppend iff the argument is 1, and 2 is not 1). -/
theorem UploadFileAsync_operation_mode_witness :
    modeWitnessRec.fileOperationType = FileOperationType.REAL_TIME_APPEND ↔ (2 : Int) = 1 :=
  (UploadFileAsync_operation_mode 2).2 [] [] "r" "b" "k/x" "/f" "d" "p" 5 modeWitnessRec
    (by decide) (by decide) (by decide)

/- =====================================================================
   C5 — uploadedCount / uploadedSize aggregation
   ===================================================================== -/

/-- C5 (amended): in the status JSON, `uploadedCount` counts exactly the
records whose status is UPLOAD_SUCCESS at poll time — records already
promoted to CONFIRM_SUCCESS are not counted — and `uploadedSize` is the sum
of the byte sizes of exactly those UPLOAD_SUCCESS records. -/
theorem statusAgg_uploaded_spec (allUploads : List AsyncUploadProgress) :
    (statusAgg allUploads).uploadedCount
        = (allUploads.filter (fun p => p.status == UploadStatus.UPLOAD_SUCCESS)).length
    ∧ (statusAgg allUploads).uploadedSize
        = ((allUploads.filter (fun p => p.status == UploadStatus.UPLOAD_SUCCESS)).map
            (fun p => p.totalSize)).sum := by
  unfold statusAgg
  rw [statusAgg_foldl_uploadedCount, statusAgg_foldl_uploadedSize]
  simp

/-- C5 counterexample: a group of one record that reached CONFIRM_SUCCESS with
10 bytes.  The claim predicts `uploadedCount = 1` and `uploadedSize = 10`
(records that reached succeeded or confirmed); the code reports 0 and 0. -/
theorem statusAgg_confirmed_excluded_cex :
    (recWith "w_1" .CONFIRM_SUCCESS 10).status = UploadStatus.CONFIRM_SUCCESS
    ∧ (statusAgg [recWith "w_1" .CONFIRM_SUCCESS 10]).uploadedCount = 0
    ∧ (statusAgg [recWith "w_1" .CONFIRM_SUCCESS 10]).uploadedCount
        ≠ ([recWith "w_1" .CONFIRM_SUCCESS 10].filter
            (fun p => p.status == UploadStatus.UPLOAD_SUCCESS
              || p.status == UploadStatus.CONFIRM_SUCCESS)).length
    ∧ (statusAgg [recWith "w_1" .CONFIRM_SUCCESS 10]).uploadedSize
        ≠ (([recWith "w_1" .CONFIRM_SUCCESS 10].filter
            (fun p => p.status == UploadStatus.UPLOAD_SUCCESS
              || p.status == UploadStatus.CONFIRM_SUCCESS)).map
            (fun p => p.totalSize)).sum := by
  decide

/- =====================================================================
   C10 — cancelled records aggregate as in-progress
   ===================================================================== -/

/-- C10: a Cancelled record is classified with Pending and Uploading: any
group containing a cancelled record and no failed record reports aggregate
status Uploading (1), regardless of the other records' statuses. -/
theorem overallStatus_cancelled (allUploads : List AsyncUploadProgress)
    (h1 : ∃ p ∈ allUploads, p.status = UploadStatus.UPLOAD_CANCELLED)
    (h2 : ∀ p ∈ allUploads, p.status ≠ UploadStatus.UPLOAD_FAILED) :
    overallStatus allUploads = UploadStatus.UPLOAD_UPLOADING := by
  obtain ⟨q, hq, hqs⟩ := h1
  have hf : (statusAgg allUploads).anyFailed = false :=
    statusAgg_anyFailed_false allUploads _ h2 rfl
  have hc : (statusAgg allUploads).allCompleted = false :=
    statusAgg_allCompleted_false_of_cancelled allUploads _ q hq hqs
  simp [overallStatus, hf, hc]

/-- Witness for C10: one cancelled and one confirmed record aggregate to
Uploading. -/
theorem overallStatus_cancelled_witness :
    overallStatus [recWith "w_1" .UPLOAD_CANCELLED 1, recWith "w_2" .CONFIRM_SUCCESS 2]
      = UploadStatus.UPLOAD_UPLOADING :=
  overallStatus_cancelled _
    ⟨recWith "w_1" .UPLOAD_CANCELLED 1, by decide, by decide⟩ (by decide)

/- =====================================================================
   C3 — with_auto_refresh retry policy
   ===================================================================== -/

theorem withAutoRefreshGo_result (op : Nat → S3Outcome) :
    ∀ (remaining attempt : Nat),
      (withAutoRefreshGo op attempt remaining).1
        = op (withAutoRefreshGo op attempt remaining).2 := by
  intro remaining
  induction remaining with
  | zero => intro attempt; rfl
  | succ r ih =>
    intro attempt
    unfold withAutoRefreshGo
    split_ifs with h1 h2
    · rfl
    · exact ih (attempt + 1)
    · rfl

theorem withAutoRefreshGo_le (op : Nat → S3Outcome) :
    ∀ (remaining attempt : Nat),
      (withAutoRefreshGo op attempt remaining).2 ≤ attempt + remaining := by
  intro remaining
  induction remaining with
  | zero => intro attempt; exact Nat.le_refl _
  | succ r ih =>
    intro attempt
    unfold withAutoRefreshGo
    split_ifs with h1 h2
    · show attempt ≤ attempt + (r + 1)
      omega
    · have := ih (attempt + 1)
      omega
    · show attempt ≤ attempt + (r + 1)
      omega

theorem withAutoRefreshGo_markers (op : Nat → S3Outcome) :
    ∀ (remaining attempt k : Nat), attempt ≤ k →
      k < (withAutoRefreshGo op attempt remaining).2 →
      (op k).success = false ∧ isExpiredOutcome (op k) = true := by
  intro remaining
  induction remaining with
  | zero =>
    intro attempt k h1 h2
    have hz : (withAutoRefreshGo op attempt 0).2 = attempt := rfl
    omega
  | succ r ih =>
    intro attempt k h1 h2
    unfold withAutoRefreshGo at h2
    split_ifs at h2 with hs he
    · exact absurd (show k < attempt from h2) (by omega)
    · by_cases hk : k = attempt
      · subst hk
        exact ⟨by simpa using hs, he⟩
      · exact ih (attempt + 1) k (by omega) h2
    · exact absurd (show k < attempt from h2) (by omega)

theorem withAutoRefreshGo_immediate (op : Nat → S3Outcome) (remaining attempt : Nat)
    (h1 : (op attempt).success = false) (h2 : isExpiredOutcome (op attempt) = false) :
    withAutoRefreshGo op attempt remaining = (op attempt, attempt) := by
  cases remaining with
  | zero => rfl
  | succ r =>
    unfold withAutoRefreshGo
    rw [if_neg (by simp [h1]), if_pos (by simp [h2])]

theorem withAutoRefreshGo_all_expired (op : Nat → S3Outcome)
    (h : ∀ k, (op k).success = false ∧ isExpiredOutcome (op k) = true) :
    ∀ (remaining attempt : Nat),
      withAutoRefreshGo op attempt remaining = (op (attempt + remaining), attempt + remaining) := by
  intro remaining
  induction remaining with
  | zero => intro attempt; rfl
  | succ r ih =>
    intro attempt
    unfold withAutoRefreshGo
    rw [if_neg (by simp [(h attempt).1]), if_neg (by simp [(h attempt).2]), ih (attempt + 1)]
    have harith : attempt + 1 + r = attempt + (r + 1) := by omega
    rw [harith]

/-- C3: `with_auto_refresh` returns `op` applied with the current client (the
final outcome is the op's outcome on the last client obtained); it performs at
most `kMaxExpiredRetries = 3` forced refreshes; each forced refresh was
triggered by a failure whose exception name or message contains
`ExpiredToken`/`RequestExpired`; a failure without those markers is returned
immediately with no refresh; and when every attempt fails with a marker, the
failing outcome is returned after exactly 3 refreshes. -/
theorem with_auto_refresh_spec (op : Nat → S3Outcome) :
    (with_auto_refresh op).1 = op (with_auto_refresh op).2
    ∧ (with_auto_refresh op).2 ≤ kMaxExpiredRetries
    ∧ (∀ k, k < (with_auto_refresh op).2 →
        (op k).success = false ∧ isExpiredOutcome (op k) = true)
    ∧ ((op 0).success = false → isExpiredOutcome (op 0) = false →
        with_auto_refresh op = (op 0, 0))
    ∧ ((∀ k, (op k).success = false ∧ isExpiredOutcome (op k) = true) →
        with_auto_refresh op = (op kMaxExpiredRetries, kMaxExpiredRetries)) := by
  refine ⟨withAutoRefreshGo_result op kMaxExpiredRetries 0, ?_, ?_, ?_, ?_⟩
  · simpa using withAutoRefreshGo_le op kMaxExpiredRetries 0
  · intro k hk
    exact withAutoRefreshGo_markers op kMaxExpiredRetries 0 k (Nat.zero_le k) hk
  · intro h1 h2
    exact withAutoRefreshGo_immediate op kMaxExpiredRetries 0 h1 h2
  · intro h
    simpa using withAutoRefreshGo_all_expired op h kMaxExpiredRetries 0

/-- Witness for C3: an AccessDenied failure (no expired marker) is returned
immediately, with zero forced refreshes. -/
theorem with_auto_refresh_spec_witness :
    with_auto_refresh (fun _ => failOutcome) = (failOutcome, 0) :=
  (with_auto_refresh_spec (fun _ => failOutcome)).2.2.2.1 rfl (by decide)

/- =====================================================================
   C1 — admission control at the upload limit
   ===================================================================== -/

/-- C1: with non-null parameters and an initialized SDK, `UploadFileAsync`
rejects with the "Upload limit exceeded" error iff the tracker holds at least
`MAX_UPLOAD_LIMIT` (100) records and no record's upload id begins with the
submitted data id followed by "_"; in particular, when the limit is reached
but the data id already has a record, the submission is accepted. -/
theorem UploadFileAsync_limit_spec (tr : Tracker) (queue : List UploadTask)
    (region bucketName objectKey localFilePath dataId patientId : String) (i now : Int) :
    ((∃ n, (UploadFileAsync tr queue true (some region) (some bucketName) (some objectKey)
        (some localFilePath) (some dataId) (some patientId) i now).response
          = UploadResponse.limitExceeded n)
      ↔ MAX_UPLOAD_LIMIT ≤ getTotalUploads tr ∧ getAllUploadsByDataId tr dataId = [])
    ∧ (MAX_UPLOAD_LIMIT ≤ getTotalUploads tr → getAllUploadsByDataId tr dataId ≠ [] →
        (UploadFileAsync tr queue true (some region) (some bucketName) (some objectKey)
          (some localFilePath) (some dataId) (some patientId) i now).response
            = UploadResponse.accepted (getUploadId dataId now)) := by
  rw [UploadFileAsync_valid_eq]
  by_cases hlim : getTotalUploads tr ≥ MAX_UPLOAD_LIMIT
      ∧ (getAllUploadsByDataId tr dataId).isEmpty = true
  · rw [if_pos hlim]
    constructor
    · constructor
      · intro _
        exact ⟨hlim.1, by simpa using hlim.2⟩
      · intro _
        exact ⟨getTotalUploads tr, rfl⟩
    · intro h1 h2
      exact absurd (by simpa using hlim.2) h2
  · rw [if_neg hlim]
    constructor
    · simp only [List.isEmpty_iff, not_and] at hlim
      constructor
      · intro ⟨n, hn⟩
        exact absurd hn (by simp)
      · intro ⟨h1, h2⟩
        exact absurd h2 (hlim h1)
    · intro h1 h2
      rfl

/-- Witness for C1: with the tracker at the 100-record limit, all of it under
data id "a", a submission for "a" is still accepted. -/
theorem UploadFileAsync_limit_spec_witness :
    (UploadFileAsync fullTracker [] true (some "r") (some "b") (some "k/x") (some "/f")
      (some "a") (some "p") 0 7).response = UploadResponse.accepted (getUploadId "a" 7) :=
  (UploadFileAsync_limit_spec fullTracker [] "r" "b" "k/x" "/f" "a" "p" 0 7).2
    (by decide) (by decide)

/- =====================================================================
   C4 — PUT retry loop: attempt bound, backoff schedule, marking
   ===================================================================== -/

theorem uploadRetryGo_cancelled_false (put : Nat → Bool) (err : Nat → String) :
    ∀ (remaining retryCount : Nat),
      (uploadRetryGo put err retryCount remaining).cancelled = false := by
  intro remaining
  cases remaining with
  | zero =>
    intro c
    unfold uploadRetryGo
    by_cases h : put c = true
    · rw [if_pos h]
    · rw [if_neg h]
  | succ r =>
    intro c
    unfold uploadRetryGo
    by_cases h : put c = true
    · rw [if_pos h]
    · rw [if_neg h]

theorem uploadRetryLoop_false_cancelled (put : Nat → Bool) (err : Nat → String) :
    (uploadRetryLoop false put err).cancelled = false := by
  unfold uploadRetryLoop
  rw [if_neg (by simp)]
  exact uploadRetryGo_cancelled_false put err _ _

theorem uploadRetryGo_numPuts_pos (put : Nat → Bool) (err : Nat → String) :
    ∀ (remaining retryCount : Nat),
      1 ≤ (uploadRetryGo put err retryCount remaining).numPuts := by
  intro remaining
  cases remaining with
  | zero =>
    intro c
    unfold uploadRetryGo
    by_cases h : put c = true
    · rw [if_pos h]
    · rw [if_neg h]
  | succ r =>
    intro c
    unfold uploadRetryGo
    by_cases h : put c = true
    · rw [if_pos h]
    · rw [if_neg h]
      show 1 ≤ (uploadRetryGo put err (c + 1) r).numPuts + 1
      omega

theorem uploadRetryGo_numPuts_le (put : Nat → Bool) (err : Nat → String) :
    ∀ (remaining retryCount : Nat),
      (uploadRetryGo put err retryCount remaining).numPuts ≤ remaining + 1 := by
  intro remaining
  induction remaining with
  | zero =>
    intro c
    unfold uploadRetryGo
    by_cases h : put c = true
    · rw [if_pos h]
    · rw [if_neg h]
  | succ r ih =>
    intro c
    unfold uploadRetryGo
    by_cases h : put c = true
    · rw [if_pos h]
      show 1 ≤ r + 1 + 1
      omega
    · rw [if_neg h]
      show (uploadRetryGo put err (c + 1) r).numPuts + 1 ≤ r + 1 + 1
      have := ih (c + 1)
      omega

theorem sleepsNow_eq (c : Nat) :
    (if c > 0 then [c * 2] else [])
      = (List.range' c 1).filterMap (fun k => if 0 < k then some (k * 2) else none) := by
  by_cases hc : 0 < c <;> simp [hc]

theorem uploadRetryGo_sleeps (put : Nat → Bool) (err : Nat → String) :
    ∀ (remaining retryCount : Nat),
      (uploadRetryGo put err retryCount remaining).sleeps
        = (List.range' retryCount
            (uploadRetryGo put err retryCount remaining).numPuts).filterMap
              (fun k => if 0 < k then some (k * 2) else none) := by
  intro remaining
  induction remaining with
  | zero =>
    intro c
    unfold uploadRetryGo
    by_cases h : put c = true
    · rw [if_pos h]
      exact sleepsNow_eq c
    · rw [if_neg h]
      exact sleepsNow_eq c
  | succ r ih =>
    intro c
    unfold uploadRetryGo
    by_cases h : put c = true
    · rw [if_pos h]
      exact sleepsNow_eq c
    · rw [if_neg h]
      show (if c > 0 then [c * 2] else []) ++ (uploadRetryGo put err (c + 1) r).sleeps
        = (List.range' c ((uploadRetryGo put err (c + 1) r).numPuts + 1)).filterMap
            (fun k => if 0 < k then some (k * 2) else none)
      rw [List.range'_succ, List.filterMap_cons, ih (c + 1)]
      by_cases hc : 0 < c <;> simp [hc]

theorem uploadRetryGo_no_early (put : Nat → Bool) (err : Nat → String) :
    ∀ (remaining retryCount j : Nat),
      j + 1 < (uploadRetryGo put err retryCount remaining).numPuts →
      put (retryCount + j) = false := by
  intro remaining
  induction remaining with
  | zero =>
    intro c j hj
    unfold uploadRetryGo at hj
    by_cases h : put c = true
    · rw [if_pos h] at hj
      exact absurd (show j + 1 < 1 from hj) (by omega)
    · rw [if_neg h] at hj
      exact absurd (show j + 1 < 1 from hj) (by omega)
  | succ r ih =>
    intro c j hj
    unfold uploadRetryGo at hj
    by_cases h : put c = true
    · rw [if_pos h] at hj
      exact absurd (show j + 1 < 1 from hj) (by omega)
    · rw [if_neg h] at hj
      have hj' : j + 1 < (uploadRetryGo put err (c + 1) r).numPuts + 1 := hj
      cases j with
      | zero => simpa using h
      | succ j' =>
        have hrec := ih (c + 1) j' (by omega)
        have harith : c + (j' + 1) = c + 1 + j' := by omega
        rw [harith]
        exact hrec

theorem uploadRetryGo_success_last (put : Nat → Bool) (err : Nat → String) :
    ∀ (remaining retryCount : Nat),
      (uploadRetryGo put err retryCount remaining).uploadSuccess
        = put (retryCount + ((uploadRetryGo put err retryCount remaining).numPuts - 1)) := by
  intro remaining
  induction remaining with
  | zero =>
    intro c
    unfold uploadRetryGo
    by_cases h : put c = true
    · rw [if_pos h]
      show true = put (c + (1 - 1))
      simpa using h.symm
    · rw [if_neg h]
      show false = put (c + (1 - 1))
      simpa using (show put c = false by simpa using h).symm
  | succ r ih =>
    intro c
    unfold uploadRetryGo
    by_cases h : put c = true
    · rw [if_pos h]
      show true = put (c + (1 - 1))
      simpa using h.symm
    · rw [if_neg h]
      show (uploadRetryGo put err (c + 1) r).uploadSuccess
        = put (c + ((uploadRetryGo put err (c + 1) r).numPuts + 1 - 1))
      rw [ih (c + 1)]
      congr 1
      have hpos := uploadRetryGo_numPuts_pos put err r (c + 1)
      omega

theorem uploadRetryGo_numPuts_all_fail (put : Nat → Bool) (err : Nat → String)
    (hf : ∀ k, put k = false) :
    ∀ (remaining retryCount : Nat),
      (uploadRetryGo put err retryCount remaining).numPuts = remaining + 1 := by
  intro remaining
  induction remaining with
  | zero =>
    intro c
    unfold uploadRetryGo
    rw [if_neg (by simp [hf c])]
  | succ r ih =>
    intro c
    unfold uploadRetryGo
    rw [if_neg (by simp [hf c])]
    show (uploadRetryGo put err (c + 1) r).numPuts + 1 = r + 1 + 1
    rw [ih (c + 1)]

theorem uploadRetryGo_msg_all_fail (put : Nat → Bool) (err : Nat → String)
    (hf : ∀ k, put k = false) :
    ∀ (remaining retryCount : Nat),
      (uploadRetryGo put err retryCount remaining).finalErrorMsg
        = "S3 upload failed (attempt " ++ toString (retryCount + remaining + 1) ++ "): "
          ++ err (retryCount + remaining) := by
  intro remaining
  induction remaining with
  | zero =>
    intro c
    unfold uploadRetryGo
    rw [if_neg (by simp [hf c])]
    rfl
  | succ r ih =>
    intro c
    unfold uploadRetryGo
    rw [if_neg (by simp [hf c])]
    show (uploadRetryGo put err (c + 1) r).finalErrorMsg = _
    rw [ih (c + 1),
      show c + 1 + r + 1 = c + (r + 1) + 1 from by omega,
      show c + 1 + r = c + (r + 1) from by omega]

theorem uploadRetryGo_success_of_fail_false (put : Nat → Bool) (err : Nat → String)
    (hf : ∀ k, put k = false) :
    ∀ (remaining retryCount : Nat),
      (uploadRetryGo put err retryCount remaining).uploadSuccess = false := by
  intro remaining
  induction remaining with
  | zero =>
    intro c
    unfold uploadRetryGo
    rw [if_neg (by simp [hf c])]
  | succ r ih =>
    intro c
    unfold uploadRetryGo
    rw [if_neg (by simp [hf c])]
    exact ih (c + 1)

theorem s3_msg_ne_empty (t e : String) :
    "S3 upload failed (attempt " ++ t ++ "): " ++ e ≠ "" := by
  intro h
  have hd : ("S3 upload failed (attempt " ++ t ++ "): " ++ e).data = [] := by
    rw [h]
  rw [String.data_append, String.data_append, String.data_append] at hd
  rcases List.append_eq_nil.mp hd with ⟨hd1, _⟩
  rcases List.append_eq_nil.mp hd1 with ⟨hd2, _⟩
  rcases List.append_eq_nil.mp hd2 with ⟨hd3, _⟩
  exact absurd hd3 (by decide)

theorem uploadRetryGo_msg_ne_of_fail (put : Nat → Bool) (err : Nat → String) :
    ∀ (remaining retryCount : Nat),
      (uploadRetryGo put err retryCount remaining).uploadSuccess = false →
      (uploadRetryGo put err retryCount remaining).finalErrorMsg ≠ "" := by
  intro remaining
  induction remaining with
  | zero =>
    intro c hf
    unfold uploadRetryGo at hf ⊢
    by_cases h : put c = true
    · rw [if_pos h] at hf
      exact absurd hf (by simp)
    · rw [if_neg h]
      exact s3_msg_ne_empty _ _
  | succ r ih =>
    intro c hf
    unfold uploadRetryGo at hf ⊢
    by_cases h : put c = true
    · rw [if_pos h] at hf
      exact absurd hf (by simp)
    · rw [if_neg h] at hf ⊢
      exact ih (c + 1) hf

/-- Reduction of `asyncUploadWorker` for a found, uncancelled record with
valid parameters and a healthy environment: it marks Uploading, sizes the
record, runs the retry loop, then marks Succeeded and confirms, or marks
Failed with the loop's final error. -/
theorem asyncUploadWorker_eq (env : WorkerEnv) (tr : Tracker) (task : UploadTask)
    (p0 : AsyncUploadProgress) (hfind : getUpload tr task.uploadId = some p0)
    (hcancel : p0.shouldCancel = false)
    (hr1 : task.region ≠ "") (hr2 : task.bucketName ≠ "") (hr3 : task.objectKey ≠ "")
    (hr4 : task.localFilePath ≠ "") (hr5 : task.patientId ≠ "")
    (hsdk : env.sdkInit = true) (hex : env.fileExists task.localFilePath = true)
    (hsz : 0 ≤ env.fileSize task.localFilePath) (hcl : env.clientOk = true)
    (hop : env.fileOpenOk task.localFilePath = true) :
    asyncUploadWorker env tr task =
      if (uploadRetryLoop false (env.putSucceeds task.uploadId)
          (env.putError task.uploadId)).uploadSuccess then
        handleConfirmation env
          (updateProgress
            (setTotalSize (updateProgress tr task.uploadId .UPLOAD_UPLOADING "")
              task.uploadId (env.fileSize task.localFilePath))
            task.uploadId .UPLOAD_SUCCESS "")
          task.uploadId
      else
        (updateProgress
          (setTotalSize (updateProgress tr task.uploadId .UPLOAD_UPLOADING "")
            task.uploadId (env.fileSize task.localFilePath))
          task.uploadId .UPLOAD_FAILED
          (uploadRetryLoop false (env.putSucceeds task.uploadId)
            (env.putError task.uploadId)).finalErrorMsg, []) := by
  unfold asyncUploadWorker
  split
  · next heq => rw [hfind] at heq; cases heq
  · next progress0 heq =>
    rw [hfind] at heq
    injection heq with heq
    subst heq
    rw [if_neg (by simp [hcancel]),
      if_neg (by simp [hr1, hr2, hr3, hr4, hr5]),
      if_neg (by simp [hsdk]),
      if_neg (by simp [hex]),
      if_neg (by omega),
      if_neg (by simp [hcl]),
      if_neg (by simp [hop]),
      hcancel,
      if_neg (by simp [uploadRetryLoop_false_cancelled])]

/-- After a successful upload, `handleConfirmation` can only leave the
record's own status at Succeeded or move it to Confirmed / ConfirmFailed. -/
theorem handleConfirmation_self_status (env : WorkerEnv) (tr : Tracker) (uploadId : String)
    (p : AsyncUploadProgress) (hfind : getUpload tr uploadId = some p)
    (hps : p.status = UploadStatus.UPLOAD_SUCCESS) :
    ∀ q, getUpload (handleConfirmation env tr uploadId).1 uploadId = some q →
      q.status = UploadStatus.UPLOAD_SUCCESS ∨ q.status = UploadStatus.CONFIRM_SUCCESS
        ∨ q.status = UploadStatus.CONFIRM_FAILED := by
  intro q hq
  have hid : p.uploadId = uploadId := by simpa using (List.find?_some hfind)
  unfold handleConfirmation at hq
  split at hq
  · next heq => rw [hfind] at heq; cases heq
  · next progress heq =>
    rw [hfind] at heq
    injection heq with heq
    subst heq
    dsimp only at hq
    by_cases hmode : p.fileOperationType = FileOperationType.REAL_TIME_APPEND
    · rw [if_pos hmode] at hq
      dsimp only at hq
      rw [if_neg (by simp [hmode])] at hq
      unfold updateProgress at hq
      rw [getUpload_map _ (updateProgressRec_uploadId _ _ _), hfind] at hq
      simp only [Option.map_some'] at hq
      injection hq with hq
      subst hq
      unfold updateProgressRec
      rw [if_pos (by simpa using hid)]
      split_ifs <;> simp
    · rw [if_neg hmode] at hq
      dsimp only at hq
      by_cases hguard : p.fileOperationType = FileOperationType.BATCH_CREATE
          ∧ (checkAllCompleted (getAllUploadsByDataId tr p.dataId)).1 = true
          ∧ ¬p.confirmationAttempted = true ∧ p.dataId ≠ ""
      · rw [if_pos hguard] at hq
        dsimp only at hq
        rw [getUpload_map _ (fun r => by split <;> rfl)] at hq
        unfold setConfirmationAttempted at hq
        rw [getUpload_map _ (setConfirmationAttemptedRec_uploadId _), hfind] at hq
        simp only [Option.map_some'] at hq
        injection hq with hq
        subst hq
        unfold setConfirmationAttemptedRec
        rw [if_pos (show (p.uploadId == uploadId) = true by simpa using hid)]
        split_ifs <;> simp [hps]
      · rw [if_neg hguard] at hq
        dsimp only at hq
        rw [hfind] at hq
        injection hq with hq
        subst hq
        exact Or.inl hps

/-- C4: the Step-14 retry loop performs at most `MAX_UPLOAD_RETRIES + 1 = 4`
PUT invocations; before zero-based attempt `k ≥ 1` it sleeps `k*2` seconds
(the sleep schedule is exactly `[2, 4, ..]` over the attempts made); in the
worst case (all attempts fail) it makes 4 PUTs, sleeps `2 + 4 + 6 = 12`
seconds in total, and ends unsuccessfully with the last attempt's error; it
exits on the first successful PUT (no earlier attempt succeeded, and the loop
result equals the last PUT's outcome); and the worker then marks the record
Succeeded (possibly then Confirmed/ConfirmFailed by the confirmation step) on
success, or Failed carrying the loop's final error after exhaustion. -/
theorem uploadRetryLoop_spec (put : Nat → Bool) (err : Nat → String) :
    (uploadRetryLoop false put err).numPuts ≤ MAX_UPLOAD_RETRIES + 1
    ∧ (uploadRetryLoop false put err).sleeps
        = (List.range (uploadRetryLoop false put err).numPuts).filterMap
            (fun k => if 0 < k then some (k * 2) else none)
    ∧ ((∀ k, put k = false) →
        (uploadRetryLoop false put err).numPuts = MAX_UPLOAD_RETRIES + 1
        ∧ (uploadRetryLoop false put err).sleeps.sum = 2 + 4 + 2 * MAX_UPLOAD_RETRIES
        ∧ (uploadRetryLoop false put err).uploadSuccess = false
        ∧ (uploadRetryLoop false put err).finalErrorMsg
            = "S3 upload failed (attempt " ++ toString (MAX_UPLOAD_RETRIES + 1) ++ "): "
              ++ err MAX_UPLOAD_RETRIES)
    ∧ (∀ j, j + 1 < (uploadRetryLoop false put err).numPuts → put j = false)
    ∧ ((uploadRetryLoop false put err).uploadSuccess
        = put ((uploadRetryLoop false put err).numPuts - 1))
    ∧ (∀ (env : WorkerEnv) (tr : Tracker) (task : UploadTask) (p0 : AsyncUploadProgress),
        getUpload tr task.uploadId = some p0 → p0.shouldCancel = false →
        task.region ≠ "" → task.bucketName ≠ "" → task.objectKey ≠ "" →
        task.localFilePath ≠ "" → task.patientId ≠ "" →
        env.sdkInit = true → env.fileExists task.localFilePath = true →
        0 ≤ env.fileSize task.localFilePath → env.clientOk = true →
        env.fileOpenOk task.localFilePath = true →
        env.putSucceeds task.uploadId = put → env.putError task.uploadId = err →
        ((uploadRetryLoop false put err).uploadSuccess = false →
          getUpload (asyncUploadWorker env tr task).1 task.uploadId
            = some
                { p0 with
                  status := .UPLOAD_FAILED,
                  totalSize := env.fileSize task.localFilePath,
                  errorMessage := (uploadRetryLoop false put err).finalErrorMsg })
        ∧ ((uploadRetryLoop false put err).uploadSuccess = true →
          ∀ q, getUpload (asyncUploadWorker env tr task).1 task.uploadId = some q →
            q.status = UploadStatus.UPLOAD_SUCCESS
              ∨ q.status = UploadStatus.CONFIRM_SUCCESS
              ∨ q.status = UploadStatus.CONFIRM_FAILED)) := by
  have hloop : uploadRetryLoop false put err = uploadRetryGo put err 0 MAX_UPLOAD_RETRIES := by
    unfold uploadRetryLoop
    rw [if_neg (by simp)]
  refine ⟨?_, ?_, ?_, ?_, ?_, ?_⟩
  · rw [hloop]; exact uploadRetryGo_numPuts_le put err MAX_UPLOAD_RETRIES 0
  · rw [hloop, List.range_eq_range']
    exact uploadRetryGo_sleeps put err MAX_UPLOAD_RETRIES 0
  · intro hf
    rw [hloop]
    have hn := uploadRetryGo_numPuts_all_fail put err hf MAX_UPLOAD_RETRIES 0
    refine ⟨hn, ?_, uploadRetryGo_success_of_fail_false put err hf MAX_UPLOAD_RETRIES 0, ?_⟩
    · rw [uploadRetryGo_sleeps, hn]
      decide
    · rw [uploadRetryGo_msg_all_fail put err hf MAX_UPLOAD_RETRIES 0]
      simp
  · intro j hj
    rw [hloop] at hj
    simpa using uploadRetryGo_no_early put err MAX_UPLOAD_RETRIES 0 j hj
  · rw [hloop]
    simpa using uploadRetryGo_success_last put err MAX_UPLOAD_RETRIES 0
  · intro env tr task p0 hfind hcancel hr1 hr2 hr3 hr4 hr5 hsdk hex hsz hcl hop hput herr
    have hstep := asyncUploadWorker_eq env tr task p0 hfind hcancel hr1 hr2 hr3 hr4 hr5
      hsdk hex hsz hcl hop
    rw [hput, herr] at hstep
    have hid : p0.uploadId = task.uploadId := by simpa using (List.find?_some hfind)
    constructor
    · intro hfail
      rw [hstep, if_neg (by simp [hfail])]
      have hmsg : (uploadRetryLoop false put err).finalErrorMsg ≠ "" := by
        rw [hloop] at hfail ⊢
        exact uploadRetryGo_msg_ne_of_fail put err MAX_UPLOAD_RETRIES 0 hfail
      unfold updateProgress setTotalSize
      rw [getUpload_map _ (updateProgressRec_uploadId _ _ _),
        getUpload_map _ (setTotalSizeRec_uploadId _ _),
        getUpload_map _ (updateProgressRec_uploadId _ _ _), hfind]
      simp [updateProgressRec, setTotalSizeRec, hid, hmsg]
    · intro hsucc q hq
      rw [hstep, if_pos hsucc] at hq
      have hfind2 : getUpload
          (updateProgress (setTotalSize (updateProgress tr task.uploadId .UPLOAD_UPLOADING "")
            task.uploadId (env.fileSize task.localFilePath)) task.uploadId .UPLOAD_SUCCESS "")
          task.uploadId
        = some (updateProgressRec task.uploadId .UPLOAD_SUCCESS ""
            (setTotalSizeRec task.uploadId (env.fileSize task.localFilePath)
              (updateProgressRec task.uploadId .UPLOAD_UPLOADING "" p0))) := by
        unfold updateProgress setTotalSize
        rw [getUpload_map _ (updateProgressRec_uploadId _ _ _),
          getUpload_map _ (setTotalSizeRec_uploadId _ _),
          getUpload_map _ (updateProgressRec_uploadId _ _ _), hfind]
        rfl
      refine handleConfirmation_self_status env _ task.uploadId _ hfind2 ?_ q hq
      simp [updateProgressRec, setTotalSizeRec, hid]

/- =====================================================================
   C8 — group lookup: filter semantics, iteration order
   ===================================================================== -/

/-- C8 (amended): `getAllUploadsByDataId` returns exactly the records whose
upload id begins with `dataId ++ "_"`, as a sublist of the tracker — i.e. in
the tracker map's iteration order, which is not insertion order (a freshly
inserted record iterates first under the modelled libstdc++ behavior). -/
theorem getAllUploadsByDataId_spec (tr : Tracker) (dataId : String) :
    List.Sublist (getAllUploadsByDataId tr dataId) tr
    ∧ ∀ p, p ∈ getAllUploadsByDataId tr dataId ↔
        p ∈ tr ∧ strStartsWith p.uploadId (getUploadIdPrefixByDataId dataId) = true := by
  refine ⟨List.filter_sublist tr, fun p => ?_⟩
  simp [getAllUploadsByDataId, List.mem_filter]

/-- C8 counterexample: after inserting "d_1" and then "d_2", the group query
returns them newest-first — not in insertion order as the claim states. -/
theorem getAllUploadsByDataId_order_cex :
    (getAllUploadsByDataId twoInsertTracker "d").map (fun p => p.uploadId) = ["d_2", "d_1"]
    ∧ (["d_2", "d_1"] : List String) ≠ ["d_1", "d_2"] := by
  decide

/-- Witness for C4: when every PUT fails, the loop does exactly 4 PUTs and
sleeps 2 + 4 + 6 seconds. -/
theorem uploadRetryLoop_spec_witness :
    (uploadRetryLoop false (fun _ => false) (fun _ => "boom")).numPuts = MAX_UPLOAD_RETRIES + 1
    ∧ (uploadRetryLoop false (fun _ => false) (fun _ => "boom")).sleeps.sum
        = 2 + 4 + 2 * MAX_UPLOAD_RETRIES :=
  have h := (uploadRetryLoop_spec (fun _ => false) (fun _ => "boom")).2.2.1 (fun _ => rfl)
  ⟨h.1, h.2.1⟩

/- =====================================================================
   C2 — BatchCreate group confirmation
   ===================================================================== -/

theorem recAt_uploadId (env : WorkerEnv) (d : String) (doneIds : List String)
    (t : UploadTask) : (recAt env d doneIds t).uploadId = t.uploadId := by
  unfold recAt batchDoneRec batchPendingRec
  split <;> rfl

theorem recAt_shouldCancel (env : WorkerEnv) (d : String) (doneIds : List String)
    (t : UploadTask) : (recAt env d doneIds t).shouldCancel = false := by
  unfold recAt batchDoneRec batchPendingRec
  split <;> rfl

theorem getUpload_map_tasks (f : UploadTask → AsyncUploadProgress)
    (hf : ∀ t, (f t).uploadId = t.uploadId) (tasks : List UploadTask)
    (hnd : (tasks.map (fun t => t.uploadId)).Nodup) (t : UploadTask) (ht : t ∈ tasks) :
    getUpload (tasks.map f) t.uploadId = some (f t) := by
  induction tasks with
  | nil => cases ht
  | cons a rest ih =>
    rw [List.map_cons, getUpload_cons, hf a]
    rw [List.map_cons, List.nodup_cons] at hnd
    rcases List.mem_cons.mp ht with rfl | ht'
    · rw [if_pos (by simp)]
    · have hne : a.uploadId ≠ t.uploadId := by
        intro hcontra
        exact hnd.1 (hcontra ▸ List.mem_map_of_mem _ ht')
      rw [if_neg (by simpa using hne)]
      exact ih hnd.2 ht'

theorem recAt_mark (env : WorkerEnv) (d : String) (doneIds : List String) (t t' : UploadTask)
    (hinj : t'.uploadId = t.uploadId → t' = t) (hnotdone : t.uploadId ∉ doneIds) :
    updateProgressRec t.uploadId .UPLOAD_SUCCESS ""
      (setTotalSizeRec t.uploadId (env.fileSize t.localFilePath)
        (updateProgressRec t.uploadId .UPLOAD_UPLOADING "" (recAt env d doneIds t')))
      = recAt env d (doneIds ++ [t.uploadId]) t' := by
  by_cases h : t'.uploadId = t.uploadId
  · have := hinj h
    subst this
    unfold recAt
    rw [if_neg hnotdone, if_pos (by simp)]
    simp [updateProgressRec, setTotalSizeRec, batchPendingRec, batchDoneRec]
  · unfold recAt
    by_cases hdone : t'.uploadId ∈ doneIds
    · rw [if_pos hdone, if_pos (by simp [hdone])]
      simp [updateProgressRec, setTotalSizeRec, batchDoneRec, batchPendingRec, h]
    · rw [if_neg hdone, if_neg (by simp [hdone, h])]
      simp [updateProgressRec, setTotalSizeRec, batchPendingRec, h]

theorem asyncUploadWorker_batch_step (env : WorkerEnv) (d : String)
    (tasks : List UploadTask) (H : batchScenario env d tasks) (doneIds : List String)
    (t : UploadTask) (ht : t ∈ tasks)
    (hnotdone : t.uploadId ∉ doneIds) :
    asyncUploadWorker env (tasks.map (recAt env d doneIds)) t
      = handleConfirmation env (tasks.map (recAt env d (doneIds ++ [t.uploadId])))
          t.uploadId := by
  obtain ⟨hd, hnd, hsdk, hcl, hT⟩ := H
  obtain ⟨hpfx, hr1, hr2, hr3, hr4, hr5, hex, hsz, hop, hloopt⟩ := hT t ht
  have hfind := getUpload_map_tasks (recAt env d doneIds) (recAt_uploadId env d doneIds)
    tasks hnd t ht
  have hpend : recAt env d doneIds t = batchPendingRec d t := by
    unfold recAt
    rw [if_neg hnotdone]
  rw [hpend] at hfind
  have hstep := asyncUploadWorker_eq env _ t (batchPendingRec d t) hfind rfl
    hr1 hr2 hr3 hr4 hr5 hsdk hex hsz hcl hop
  rw [hstep, if_pos hloopt]
  congr 1
  unfold updateProgress setTotalSize
  rw [List.map_map, List.map_map, List.map_map]
  apply List.map_congr_left
  intro t' ht'
  have hinj : t'.uploadId = t.uploadId → t' = t :=
    fun he => List.inj_on_of_nodup_map hnd ht' ht he
  simpa [Function.comp] using recAt_mark env d doneIds t t' hinj hnotdone

theorem recAt_done_of_mem (env : WorkerEnv) (d : String) (ids : List String)
    (t : UploadTask) (h : t.uploadId ∈ ids) :
    recAt env d ids t = batchDoneRec env d t := by
  unfold recAt
  rw [if_pos h]

theorem getAllUploadsByDataId_all (tr : Tracker) (d : String)
    (h : ∀ p ∈ tr, strStartsWith p.uploadId (getUploadIdPrefixByDataId d) = true) :
    getAllUploadsByDataId tr d = tr :=
  List.filter_eq_self.mpr h

theorem checkAllCompleted_fst_false (l : List AsyncUploadProgress)
    (u : AsyncUploadProgress) (hu : u ∈ l) (h1 : u.status ≠ UploadStatus.UPLOAD_SUCCESS)
    (h2 : u.status ≠ UploadStatus.CONFIRM_SUCCESS) :
    (checkAllCompleted l).1 = false := by
  by_cases hch : (checkAllCompleted l).1 = true
  · rcases (checkAllCompleted_fst_true_iff l).mp hch u hu with h | h <;> contradiction
  · simpa using hch

theorem runWorker_cons (env : WorkerEnv) (tr : Tracker) (task : UploadTask)
    (rest : List UploadTask) :
    runWorker env tr (task :: rest)
      = ((runWorker env (asyncUploadWorker env tr task).1 rest).1,
         (asyncUploadWorker env tr task).2
           ++ (runWorker env (asyncUploadWorker env tr task).1 rest).2) := rfl

theorem runWorker_singleton (env : WorkerEnv) (tr : Tracker) (task : UploadTask) :
    runWorker env tr [task] = asyncUploadWorker env tr task := by
  show ((asyncUploadWorker env tr task).1,
    (asyncUploadWorker env tr task).2 ++ []) = asyncUploadWorker env tr task
  simp

theorem handleConfirmation_final (env : WorkerEnv) (d : String)
    (tasks : List UploadTask) (H : batchScenario env d tasks)
    (t : UploadTask) (ht : t ∈ tasks) :
    handleConfirmation env (tasks.map (batchDoneRec env d)) t.uploadId
      = (((tasks.map (batchDoneRec env d)).map (setConfirmationAttemptedRec t.uploadId)).map
          (fun p => if (strStartsWith p.uploadId (getUploadIdPrefixByDataId d)
              && p.status == UploadStatus.UPLOAD_SUCCESS) = true then
            { p with status := batchFinalStatus env d tasks t } else p),
         [batchConfirmCallOf env d tasks t]) := by
  obtain ⟨hd, hnd, hsdk, hcl, hT⟩ := H
  have hfind := getUpload_map_tasks (batchDoneRec env d) (fun u => rfl) tasks hnd t ht
  have hgroup : getAllUploadsByDataId (tasks.map (batchDoneRec env d)) d
      = tasks.map (batchDoneRec env d) := by
    apply getAllUploadsByDataId_all
    intro p hp
    rcases List.mem_map.mp hp with ⟨u, hu, rfl⟩
    exact (hT u hu).1
  have hcomp : checkAllCompleted (tasks.map (batchDoneRec env d))
      = (true, ((tasks.map (batchDoneRec env d)).map (fun u => u.totalSize)).sum) :=
    checkAllCompleted_of_all_success _ (by
      intro u hu
      rcases List.mem_map.mp hu with ⟨v, hv, rfl⟩
      rfl)
  have hsum : ((tasks.map (batchDoneRec env d)).map (fun u => u.totalSize)).sum
      = (tasks.map (fun u => env.fileSize u.localFilePath)).sum := by
    rw [List.map_map]
    rfl
  unfold handleConfirmation
  split
  · next heq => rw [hfind] at heq; cases heq
  · next progress heq =>
    rw [hfind] at heq
    injection heq with heq
    subst heq
    dsimp only
    rw [if_neg (show ¬ ((batchDoneRec env d t).fileOperationType
      = FileOperationType.REAL_TIME_APPEND) from by simp [batchDoneRec, batchPendingRec])]
    dsimp only
    rw [show (batchDoneRec env d t).dataId = d from rfl, hgroup, hcomp]
    dsimp only
    rw [if_pos (show (batchDoneRec env d t).fileOperationType
          = FileOperationType.BATCH_CREATE ∧ (true : Bool) = true
          ∧ ¬ (batchDoneRec env d t).confirmationAttempted = true ∧ d ≠ "" from
        ⟨rfl, rfl, by simp [batchDoneRec, batchPendingRec], hd⟩)]
    rw [hsum, List.length_map]
    simp only [setConfirmationAttempted, List.nil_append, Prod.mk.injEq]
    constructor
    · rfl
    · simp [batchConfirmCallOf, batchDoneRec, batchPendingRec]

theorem finalTracker_status (env : WorkerEnv) (d : String) (tasks : List UploadTask)
    (H : batchScenario env d tasks) (t : UploadTask) :
    ∀ p ∈ ((tasks.map (batchDoneRec env d)).map (setConfirmationAttemptedRec t.uploadId)).map
        (fun p => if (strStartsWith p.uploadId (getUploadIdPrefixByDataId d)
            && p.status == UploadStatus.UPLOAD_SUCCESS) = true then
          { p with status := batchFinalStatus env d tasks t } else p),
      p.status = batchFinalStatus env d tasks t := by
  obtain ⟨hd, hnd, hsdk, hcl, hT⟩ := H
  intro p hp
  rcases List.mem_map.mp hp with ⟨q, hq, rfl⟩
  rcases List.mem_map.mp hq with ⟨r, hr, rfl⟩
  rcases List.mem_map.mp hr with ⟨u, hu, rfl⟩
  have hpfxu := (hT u hu).1
  have hcond : (strStartsWith
      (setConfirmationAttemptedRec t.uploadId (batchDoneRec env d u)).uploadId
      (getUploadIdPrefixByDataId d)
      && (setConfirmationAttemptedRec t.uploadId (batchDoneRec env d u)).status
          == UploadStatus.UPLOAD_SUCCESS) = true := by
    rw [setConfirmationAttemptedRec_uploadId]
    have hst : (setConfirmationAttemptedRec t.uploadId (batchDoneRec env d u)).status
        = UploadStatus.UPLOAD_SUCCESS := by
      unfold setConfirmationAttemptedRec
      split <;> rfl
    rw [hst]
    simpa [batchDoneRec, batchPendingRec] using hpfxu
  rw [if_pos hcond]

theorem handleConfirmation_not_complete (env : WorkerEnv) (d : String)
    (tasks : List UploadTask) (H : batchScenario env d tasks) (ids : List String)
    (t : UploadTask) (ht : t ∈ tasks) (hmem : t.uploadId ∈ ids)
    (u : UploadTask) (hu : u ∈ tasks) (hupend : u.uploadId ∉ ids) :
    handleConfirmation env (tasks.map (recAt env d ids)) t.uploadId
      = (tasks.map (recAt env d ids), []) := by
  obtain ⟨hd, hnd, hsdk, hcl, hT⟩ := H
  have hfind := getUpload_map_tasks (recAt env d ids) (recAt_uploadId env d ids)
    tasks hnd t ht
  rw [recAt_done_of_mem env d ids t hmem] at hfind
  have hpendu : recAt env d ids u = batchPendingRec d u := by
    unfold recAt
    rw [if_neg hupend]
  have hfalse : (checkAllCompleted (getAllUploadsByDataId (tasks.map (recAt env d ids))
      (batchDoneRec env d t).dataId)).1 = false := by
    have hgroup : getAllUploadsByDataId (tasks.map (recAt env d ids))
        (batchDoneRec env d t).dataId = tasks.map (recAt env d ids) := by
      apply getAllUploadsByDataId_all
      intro p hp
      rcases List.mem_map.mp hp with ⟨v, hv, rfl⟩
      rw [recAt_uploadId]
      exact (hT v hv).1
    rw [hgroup]
    refine checkAllCompleted_fst_false _ (recAt env d ids u)
      (List.mem_map_of_mem _ hu) ?_ ?_
    · rw [hpendu]
      simp [batchPendingRec]
    · rw [hpendu]
      simp [batchPendingRec]
  unfold handleConfirmation
  split
  · rfl
  · next progress heq =>
    rw [hfind] at heq
    injection heq with heq
    subst heq
    dsimp only
    rw [if_neg (show ¬ ((batchDoneRec env d t).fileOperationType
      = FileOperationType.REAL_TIME_APPEND) from by simp [batchDoneRec, batchPendingRec])]
    dsimp only
    rw [if_neg (show ¬ ((batchDoneRec env d t).fileOperationType
          = FileOperationType.BATCH_CREATE
        ∧ (checkAllCompleted (getAllUploadsByDataId (tasks.map (recAt env d ids))
            (batchDoneRec env d t).dataId)).1 = true
        ∧ ¬ (batchDoneRec env d t).confirmationAttempted = true
        ∧ (batchDoneRec env d t).dataId ≠ "") from by simp [hfalse])]

theorem runWorker_batch (env : WorkerEnv) (d : String) (tasks : List UploadTask)
    (H : batchScenario env d tasks) :
    ∀ (rest done : List UploadTask) (t : UploadTask),
      tasks = done ++ rest →
      rest.getLast? = some t →
      (runWorker env (tasks.map (recAt env d (done.map (fun x => x.uploadId)))) rest).2
        = [batchConfirmCallOf env d tasks t]
      ∧ ∀ p ∈ (runWorker env
          (tasks.map (recAt env d (done.map (fun x => x.uploadId)))) rest).1,
          p.status = batchFinalStatus env d tasks t := by
  intro rest
  induction rest with
  | nil =>
    intro done t hsplit hlast
    cases hlast
  | cons t0 rest2 ih =>
    intro done t hsplit hlast
    have hnd := H.2.1
    have ht0 : t0 ∈ tasks := by
      rw [hsplit]
      simp
    have hnotdone : t0.uploadId ∉ done.map (fun x => x.uploadId) := by
      intro hin
      rw [hsplit, List.map_append, List.map_cons] at hnd
      have hdisj := (List.nodup_append.mp hnd).2.2
      exact hdisj hin (by simp)
    cases rest2 with
    | nil =>
      have ht : t = t0 := by
        simpa using hlast.symm
      subst ht
      have hall : ∀ u ∈ tasks,
          u.uploadId ∈ done.map (fun x => x.uploadId) ++ [t.uploadId] := by
        intro u hu
        rw [hsplit] at hu
        rcases List.mem_append.mp hu with h | h
        · exact List.mem_append.mpr (Or.inl (List.mem_map_of_mem _ h))
        · rcases List.mem_singleton.mp h with rfl
          simp
      have hdone : tasks.map (recAt env d (done.map (fun x => x.uploadId) ++ [t.uploadId]))
          = tasks.map (batchDoneRec env d) := by
        apply List.map_congr_left
        intro u hu
        exact recAt_done_of_mem env d _ u (hall u hu)
      have hstep := asyncUploadWorker_batch_step env d tasks H
        (done.map (fun x => x.uploadId)) t ht0 hnotdone
      have hfin := handleConfirmation_final env d tasks H t ht0
      rw [runWorker_singleton, hstep, hdone, hfin]
      constructor
      · rfl
      · intro p hp
        exact finalTracker_status env d tasks H t p hp
    | cons t1 rest3 =>
      have hsplit2 : tasks = (done ++ [t0]) ++ (t1 :: rest3) := by
        rw [hsplit]
        simp
      have ht1 : t1 ∈ tasks := by
        rw [hsplit2]
        simp
      have ht1pend : t1.uploadId ∉ done.map (fun x => x.uploadId) ++ [t0.uploadId] := by
        intro hin
        rw [hsplit2, List.map_append, List.map_append] at hnd
        have hdisj := (List.nodup_append.mp hnd).2.2
        have hmem1 : t1.uploadId ∈ done.map (fun x => x.uploadId)
            ++ [t0].map (fun x => x.uploadId) := by simpa using hin
        exact hdisj hmem1 (by simp)
      have hstep := asyncUploadWorker_batch_step env d tasks H
        (done.map (fun x => x.uploadId)) t0 ht0 hnotdone
      have hnc := handleConfirmation_not_complete env d tasks H
        (done.map (fun x => x.uploadId) ++ [t0.uploadId]) t0 ht0 (by simp) t1 ht1 ht1pend
      rw [runWorker_cons, hstep, hnc]
      dsimp only
      have hrec := ih (done ++ [t0]) t hsplit2 (by simpa using hlast)
      simp only [List.map_append, List.map_cons, List.map_nil] at hrec
      constructor
      · simpa using hrec.1
      · intro p hp
        exact hrec.2 p (by simpa using hp)

/-- C2: In BatchCreate mode the batch confirmation is issued only when every
record of the group is in {succeeded, confirmed}; and over a serial run of a
whole BatchCreate group whose uploads all succeed, the batch confirm is
issued exactly once (by the last task), with `total_folder_size` the sum of
all the group's file sizes, with the object key taken as-is for a one-record
group and with the last path segment stripped (keeping the trailing slash)
for a larger group; on a successful confirmation every record ends Confirmed,
and on a failed one ConfirmFailed. -/
theorem batchCreate_confirm_spec :
    (∀ (env : WorkerEnv) (tr : Tracker) (uploadId : String) (p : AsyncUploadProgress),
      getUpload tr uploadId = some p →
      p.fileOperationType = FileOperationType.BATCH_CREATE →
      (handleConfirmation env tr uploadId).2 ≠ [] →
      ∀ u ∈ getAllUploadsByDataId tr p.dataId,
        u.status = UploadStatus.UPLOAD_SUCCESS ∨ u.status = UploadStatus.CONFIRM_SUCCESS)
    ∧ ∀ (env : WorkerEnv) (d : String) (tasks : List UploadTask) (t : UploadTask),
        batchScenario env d tasks → tasks.getLast? = some t →
        (runWorker env (tasks.map (batchPendingRec d)) tasks).2
          = [batchConfirmCallOf env d tasks t]
        ∧ ∀ p ∈ (runWorker env (tasks.map (batchPendingRec d)) tasks).1,
            p.status = batchFinalStatus env d tasks t := by
  constructor
  · intro env tr uploadId p hfind hmode hcalls
    unfold handleConfirmation at hcalls
    split at hcalls
    · next heq => rw [hfind] at heq; cases heq
    · next progress heq =>
      rw [hfind] at heq
      injection heq with heq
      subst heq
      dsimp only at hcalls
      rw [if_neg (show ¬ (p.fileOperationType = FileOperationType.REAL_TIME_APPEND)
        from by simp [hmode])] at hcalls
      dsimp only at hcalls
      by_cases hguard : p.fileOperationType = FileOperationType.BATCH_CREATE
          ∧ (checkAllCompleted (getAllUploadsByDataId tr p.dataId)).1 = true
          ∧ ¬p.confirmationAttempted = true ∧ p.dataId ≠ ""
      · exact (checkAllCompleted_fst_true_iff _).mp hguard.2.1
      · rw [if_neg hguard] at hcalls
        exact absurd rfl hcalls
  · intro env d tasks t H hlast
    have hbase : tasks.map (batchPendingRec d)
        = tasks.map (recAt env d (([] : List UploadTask).map (fun x => x.uploadId))) := by
      apply List.map_congr_left
      intro u _
      unfold recAt
      rw [if_neg (by simp)]
    rw [hbase]
    exact runWorker_batch env d tasks H tasks [] t (by simp) hlast

/-- Witness for C2: the three-file folder scenario S4 — one batch confirm,
size 30, directory key, all records Confirmed. -/
theorem batchCreate_confirm_spec_witness :
    (runWorker envW (tasksW.map (batchPendingRec "d")) tasksW).2
      = [ConfirmCall.raw "d" "scan" "pt" 30 "p/t/source_data/d/scan/"]
    ∧ ((runWorker envW (tasksW.map (batchPendingRec "d")) tasksW).1.map
        (fun p => p.status)) = [UploadStatus.CONFIRM_SUCCESS, UploadStatus.CONFIRM_SUCCESS,
          UploadStatus.CONFIRM_SUCCESS] := by
  have h := batchCreate_confirm_spec.2 envW "d" tasksW
    { uploadId := "d_3", region := "r", bucketName := "b",
      objectKey := "p/t/source_data/d/scan/c", localFilePath := "/c",
      dataId := "d", patientId := "pt" }
    (by unfold batchScenario; decide) (by decide)
  constructor
  · rw [h.1]
    decide
  · decide

end S3Upload
